import Mathlib

/-!
Verification of the guitarfx DSP engine against its specification.

The Python sources are shallowly embedded: numpy float arrays become
`List ℝ`, int16 sample buffers become `List ℤ`, and each effect's mutable
object state becomes an explicit structure threaded through its `process`
function.  External library calls with exact documented semantics
(`scipy.signal.lfilter`, `numpy.fft.rfft`, `scipy.signal.windows.hann`,
`numpy` elementwise arithmetic) are embedded by their defining formulas.
-/

noncomputable section

namespace GuitarFx

/-- `np.clip(v, lo, hi)` on a scalar. -/
def clip (lo hi v : ℝ) : ℝ := max lo (min hi v)

/-- Mean of a list of reals (`np.mean`); numpy yields NaN on the empty
array, the sources never take the mean of an empty chunk and we use 0. -/
def listMean (xs : List ℝ) : ℝ := (xs.sum) / xs.length

/-- RMS of a chunk: `np.sqrt(np.mean(np.square(data)))`,
from `src/utils/audio_utils.py::get_rms` (empty data gives 0.0). -/
def get_rms (xs : List ℝ) : ℝ :=
  if xs = [] then 0 else Real.sqrt (listMean (xs.map (fun v => v ^ 2)))

/-- `numpy.fft.rfft`: bin `k` of the length-`N` real DFT,
`X_k = Σ_{n<N} x_n · exp(-2πi·k·n/N)`. -/
def rfftBin (xs : List ℝ) (k : ℕ) : ℂ :=
  ∑ n ∈ Finset.range xs.length,
    (xs.getD n 0 : ℂ) * Complex.exp (-(2 * Real.pi * Complex.I * k * n) / xs.length)

/-- `numpy.fft.rfft` returns bins `0 .. N/2`. -/
def rfft (xs : List ℝ) : List ℂ :=
  (List.range (xs.length / 2 + 1)).map (rfftBin xs)

/-- `np.abs` of an rfft output: the per-bin magnitudes. -/
def fftMagnitude (xs : List ℝ) : List ℝ := (rfft xs).map Complex.abs

/-- `src/utils/audio_utils.py::is_pop_noise`: the commented-out band logic
is dead code; the live code sums the magnitudes, returns `False` below the
`min_energy = 0.01` floor and otherwise tests `total_energy > 1000`. -/
def is_pop_noise (fft_magnitude : List ℝ) : Bool :=
  if fft_magnitude.sum < 1 / 100 then false else decide (fft_magnitude.sum > 1000)

/-- `ndarray.astype(np.int16)` on an in-range float: truncation toward 0. -/
def truncInt (r : ℝ) : ℤ := if 0 ≤ r then ⌊r⌋ else ⌈r⌉

/-- Decode one signed 16-bit sample to float: `x.astype(np.float32)/32768.0`. -/
def i16ToFloat (v : ℤ) : ℝ := (v : ℝ) / 32768

/-- Encode one float sample: `np.clip(v*32768.0, -32768, 32767).astype(np.int16)`. -/
def floatToI16 (v : ℝ) : ℤ := truncInt (clip (-32768) 32767 (v * 32768))

end GuitarFx

namespace GuitarFx

/-! ### Butterworth filter variants, `src/effect/filters/Filters.py`

Each `__init__` normalizes the requested cutoff by the Nyquist frequency
and applies a single one-sided clamp before calling `scipy.signal.butter`. -/

/-- `LowpassFilter.__init__`: `normal_cutoff = min(cutoff_freq/nyquist, 0.99)`. -/
def LowpassFilter.normalCutoff (samplerate cutoff_freq : ℝ) : ℝ :=
  min (cutoff_freq / (1 / 2 * samplerate)) (99 / 100)

/-- `HighpassFilter.__init__`: `normal_cutoff = max(cutoff_freq/nyquist, 0.001)`. -/
def HighpassFilter.normalCutoff (samplerate cutoff_freq : ℝ) : ℝ :=
  max (cutoff_freq / (1 / 2 * samplerate)) (1 / 1000)

/-- `BandpassFilter.__init__`: `low = max(lowcut/nyquist, 0.001)`,
`high = min(highcut/nyquist, 0.99)`. -/
def BandpassFilter.normalCutoffs (samplerate lowcut highcut : ℝ) : ℝ × ℝ :=
  (max (lowcut / (1 / 2 * samplerate)) (1 / 1000),
   min (highcut / (1 / 2 * samplerate)) (99 / 100))

/-! ### `scipy.signal.lfilter` with carried initial conditions

The documented direct-form-II-transposed recurrence: with `n` state slots
(`n = max(len(a), len(b)) - 1`),
`y[m] = (b[0]·x[m] + z[0]) / a[0]` and
`z[i] := b[i+1]·x[m] - a[i+1]·y[m] + z[i+1]` (missing entries read 0).
`lfiltic(b, a, y=[], x=[])` is the all-zero state. -/

/-- One `lfilter` sample step: returns the output sample and the new state. -/
def lfilterStep (b a : List ℝ) (z : List ℝ) (x : ℝ) : ℝ × List ℝ :=
  let y := (b.getD 0 0 * x + z.getD 0 0) / a.getD 0 0
  (y, (List.range (max b.length a.length - 1)).map
    fun i => b.getD (i + 1) 0 * x - a.getD (i + 1) 0 * y + z.getD (i + 1) 0)

/-- `lfilter(b, a, xs, zi=z)`: the filtered chunk and the final state. -/
def lfilter (b a : List ℝ) (z : List ℝ) : List ℝ → List ℝ × List ℝ
  | [] => ([], z)
  | x :: xs =>
    let st := lfilterStep b a z x
    let rest := lfilter b a st.2 xs
    (st.1 :: rest.1, rest.2)

/-- `scipy.signal.lfiltic(b, a, y=[], x=[])`: zero initial conditions. -/
def lfiltic (b a : List ℝ) : List ℝ := List.replicate (max b.length a.length - 1) 0

/-- C4 counterexample: a `LowpassFilter` at 1000 Hz sample rate with a
0.1 Hz cutoff passes the normalized cutoff 0.0002 < 0.001 to the design
routine, and a `HighpassFilter` at 1000 Hz with a 600 Hz cutoff passes
1.2 > 0.99, so the normalized cutoffs do not all lie in [0.001, 0.99]. -/
theorem lowpass_highpass_cutoff_escapes_claimed_interval :
    LowpassFilter.normalCutoff 1000 (1 / 10) < 1 / 1000 ∧
    HighpassFilter.normalCutoff 1000 600 > 99 / 100 := by
  constructor
  · have : (1 / 10 : ℝ) / (1 / 2 * 1000) = 1 / 5000 := by norm_num
    rw [LowpassFilter.normalCutoff, this]
    rw [min_eq_left (by norm_num)]
    norm_num
  · have : (600 : ℝ) / (1 / 2 * 1000) = 6 / 5 := by norm_num
    rw [HighpassFilter.normalCutoff, this]
    rw [max_eq_left (by norm_num)]
    norm_num

/-- C4 (amended): each Butterworth variant applies exactly one one-sided
clamp per cutoff: the lowpass normalized cutoff never exceeds 0.99, the
highpass normalized cutoff is never below 0.001, and the bandpass low and
high normalized cutoffs are respectively at least 0.001 and at most 0.99;
none of the variants clamps on the opposite side. -/
theorem butterworth_cutoff_one_sided_clamps (samplerate c lowcut highcut : ℝ) :
    LowpassFilter.normalCutoff samplerate c ≤ 99 / 100 ∧
    HighpassFilter.normalCutoff samplerate c ≥ 1 / 1000 ∧
    (BandpassFilter.normalCutoffs samplerate lowcut highcut).1 ≥ 1 / 1000 ∧
    (BandpassFilter.normalCutoffs samplerate lowcut highcut).2 ≤ 99 / 100 := by
  refine ⟨min_le_right _ _, le_max_right _ _, le_max_right _ _, min_le_right _ _⟩

/-! ### Gain-stage effects, `src/effect/gain_stage/Overdrive.py` and
`src/effect/gain_stage/Distortion.py` -/

/-- Inline RMS used by both gain stages: `np.sqrt(np.mean(audio_data**2))`. -/
def rmsOf (xs : List ℝ) : ℝ := Real.sqrt (listMean (xs.map (fun v => v ^ 2)))

/-- The parameter state of `Overdrive`. -/
structure Overdrive where
  samplerate : ℕ
  pregain : ℝ
  postgain : ℝ
  auto_gain_compensation : Bool

/-- `Overdrive._validate_params`: non-positive gains are clamped to the
documented defaults with a warning (5.0 and 0.5). -/
def Overdrive.validate (o : Overdrive) : Overdrive :=
  let o1 := if o.pregain ≤ 0 then { o with pregain := 5 } else o
  if o1.postgain ≤ 0 then { o1 with postgain := 1 / 2 } else o1

/-- `np.tanh(audio_data * pregain)`: the saturating nonlinearity. -/
def Overdrive.processedData (o : Overdrive) (xs : List ℝ) : List ℝ :=
  xs.map (fun v => Real.tanh (v * o.pregain))

/-- The `final_scale_factor` chosen by `Overdrive.process`. -/
def Overdrive.finalScaleFactor (o : Overdrive) (xs : List ℝ) : ℝ :=
  if o.auto_gain_compensation = true ∧ rmsOf xs > 1 / 10 ^ 9 then
    if rmsOf (o.processedData xs) > 1 / 10 ^ 9 then
      min (rmsOf xs / rmsOf (o.processedData xs)) 100
    else 0
  else o.postgain

/-- `Overdrive.process`: tanh, scale, then `np.clip(·, -1.0, 1.0)`.
With `samplerate == 0` the input is returned unchanged. -/
def Overdrive.process (o : Overdrive) (xs : List ℝ) : List ℝ :=
  if o.samplerate = 0 then xs
  else (o.processedData xs).map (fun v => clip (-1) 1 (v * o.finalScaleFactor xs))

/-- The state of `Distortion`, including the owned `HighpassFilter`'s
coefficients and carried `lfilter` state (`self.highpass_filter`), which
the constructor builds once from the construction-time cutoff and order. -/
structure Distortion where
  samplerate : ℕ
  threshold : ℝ
  pregain : ℝ
  postgain : ℝ
  filter_cutoff_freq : Option ℝ
  filter_order : ℕ
  auto_gain_compensation : Bool
  hp_b : List ℝ
  hp_a : List ℝ
  hp_zi : List ℝ

/-- `Distortion._validate_params`: clamp the numeric knobs to documented
defaults; a cutoff outside `(0, samplerate/2)` disables the filter. -/
def Distortion.validate (d : Distortion) : Distortion :=
  let d1 := if ¬(0 < d.threshold ∧ d.threshold ≤ 1) then { d with threshold := 1 / 2 } else d
  let d2 := if d1.pregain ≤ 0 then { d1 with pregain := 5 } else d1
  let d3 := if d2.postgain ≤ 0 then { d2 with postgain := 3 } else d2
  match d3.filter_cutoff_freq with
  | some v => if ¬(0 < v ∧ v < (d3.samplerate : ℝ) / 2) then
      { d3 with filter_cutoff_freq := none } else d3
  | none => d3

/-- `Distortion.set_parameters`: fields passed as `None` are kept,
the rest are overwritten, then `_validate_params` runs again.  The
`highpass_filter` object (here its `hp_b`/`hp_a`/`hp_zi` fields) is not
touched. -/
def Distortion.setParameters (d : Distortion) (threshold pregain postgain : Option ℝ)
    (filter_cutoff_freq : Option ℝ) (filter_order : Option ℕ)
    (auto_gain_compensation : Option Bool) : Distortion :=
  Distortion.validate
    { d with
      threshold := threshold.getD d.threshold
      pregain := pregain.getD d.pregain
      postgain := postgain.getD d.postgain
      filter_cutoff_freq :=
        match filter_cutoff_freq with
        | some v => some v
        | none => d.filter_cutoff_freq
      filter_order := filter_order.getD d.filter_order
      auto_gain_compensation := auto_gain_compensation.getD d.auto_gain_compensation }

/-- Hard clipping: `gained = x*pregain`, then both-sided threshold clamp. -/
def Distortion.clippedData (d : Distortion) (xs : List ℝ) : List ℝ :=
  xs.map (fun v => clip (-d.threshold) d.threshold (v * d.pregain))

/-- The `final_scale_factor` chosen by `Distortion.process`: the RMS
ratio carries the effect's own `pregain` normalization. -/
def Distortion.finalScaleFactor (d : Distortion) (xs : List ℝ) : ℝ :=
  if d.auto_gain_compensation = true ∧ rmsOf xs > 1 / 10 ^ 9 then
    if rmsOf (d.clippedData xs) > 1 / 10 ^ 9 then
      min (rmsOf xs * d.pregain / rmsOf (d.clippedData xs)) 100
    else 0
  else d.postgain

/-- `Distortion.process`: clip, rescale, clamp to `[-1, 1]`, then — when a
cutoff is configured — run the constructor-built highpass filter *after*
the clamp, updating its carried `lfilter` state. -/
def Distortion.process (d : Distortion) (xs : List ℝ) : Distortion × List ℝ :=
  if d.samplerate = 0 then (d, xs)
  else
    let out := (d.clippedData xs).map (fun v => clip (-1) 1 (v / d.pregain * d.finalScaleFactor xs))
    if d.filter_cutoff_freq.isSome then
      let f := lfilter d.hp_b d.hp_a d.hp_zi out
      ({ d with hp_zi := f.2 }, f.1)
    else (d, out)

/-! ### The order-1 Butterworth highpass design

`HighpassFilter.__init__` calls `scipy.signal.butter(order, wn, btype='high')`.
For `order = 1` the design (analog prototype pole at -1, `lp2hp`, bilinear
transform with the pre-warped frequency `ω = tan(π·wn/2)`) yields
`H(z) = k·(1 - z⁻¹)/(1 - r·z⁻¹)` with `k = 1/(1+ω)` and `r = (1-ω)/(1+ω)`. -/

/-- The bilinear pre-warped frequency of a normalized cutoff. -/
def butterWarp (wn : ℝ) : ℝ := Real.tan (Real.pi * wn / 2)

/-- Numerator coefficients of `butter(1, wn, btype='high')`. -/
def butter1HighpassB (wn : ℝ) : List ℝ :=
  [1 / (1 + butterWarp wn), -(1 / (1 + butterWarp wn))]

/-- Denominator coefficients of `butter(1, wn, btype='high')`. -/
def butter1HighpassA (wn : ℝ) : List ℝ :=
  [1, -((1 - butterWarp wn) / (1 + butterWarp wn))]

/-- `Distortion.__init__` with `filter_order = 1` and a non-zero (truthy)
`filter_cutoff_freq`: stores the parameters, builds the `HighpassFilter`
(normalized cutoff clamp, `butter`, `lfiltic` zero state) once, and runs
`_validate_params`. -/
def Distortion.mk1 (sr : ℕ) (threshold pregain postgain : ℝ) (fc : ℝ)
    (auto_gain_compensation : Bool) : Distortion :=
  let nc := HighpassFilter.normalCutoff sr fc
  Distortion.validate
    { samplerate := sr
      threshold := threshold
      pregain := pregain
      postgain := postgain
      filter_cutoff_freq := some fc
      filter_order := 1
      auto_gain_compensation := auto_gain_compensation
      hp_b := butter1HighpassB nc
      hp_a := butter1HighpassA nc
      hp_zi := lfiltic (butter1HighpassB nc) (butter1HighpassA nc) }

/-- The scalar clamp lands in `[lo, hi]`. -/
theorem clip_bounds {lo hi : ℝ} (h : lo ≤ hi) (v : ℝ) :
    lo ≤ clip lo hi v ∧ clip lo hi v ≤ hi :=
  ⟨le_max_left _ _, max_le h (min_le_left _ _)⟩

/-- C5: with auto gain compensation on and both the input RMS and the
post-nonlinearity RMS above `1e-9`, the `final_scale_factor` of
`Distortion` is the pregain-normalized RMS-matching ratio capped at 100,
that of `Overdrive` is the plain RMS-matching ratio capped at 100, and in
both cases it never exceeds 100. -/
theorem auto_gain_scale_is_capped_ratio :
    (∀ (d : Distortion) (xs : List ℝ),
        d.auto_gain_compensation = true → rmsOf xs > 1 / 10 ^ 9 →
        rmsOf (d.clippedData xs) > 1 / 10 ^ 9 →
        d.finalScaleFactor xs = min (rmsOf xs * d.pregain / rmsOf (d.clippedData xs)) 100 ∧
        d.finalScaleFactor xs ≤ 100) ∧
    (∀ (o : Overdrive) (xs : List ℝ),
        o.auto_gain_compensation = true → rmsOf xs > 1 / 10 ^ 9 →
        rmsOf (o.processedData xs) > 1 / 10 ^ 9 →
        o.finalScaleFactor xs = min (rmsOf xs / rmsOf (o.processedData xs)) 100 ∧
        o.finalScaleFactor xs ≤ 100) := by
  constructor
  · intro d xs h1 h2 h3
    rw [Distortion.finalScaleFactor, if_pos ⟨h1, h2⟩, if_pos h3]
    exact ⟨rfl, min_le_right _ _⟩
  · intro o xs h1 h2 h3
    rw [Overdrive.finalScaleFactor, if_pos ⟨h1, h2⟩, if_pos h3]
    exact ⟨rfl, min_le_right _ _⟩

/-- Witness for `auto_gain_scale_is_capped_ratio`, at the one-sample chunk
`[1]` with unit gains: both RMS values evaluate to quantities above `1e-9`. -/
theorem auto_gain_scale_is_capped_ratio_witness :
    ((⟨1, 1, 1, 1, none, 1, true, [], [], []⟩ : Distortion).finalScaleFactor [1] =
        min (rmsOf [1] * 1 /
          rmsOf ((⟨1, 1, 1, 1, none, 1, true, [], [], []⟩ : Distortion).clippedData [1])) 100 ∧
      (⟨1, 1, 1, 1, none, 1, true, [], [], []⟩ : Distortion).finalScaleFactor [1] ≤ 100) ∧
    ((⟨1, 1, 1, true⟩ : Overdrive).finalScaleFactor [1] =
        min (rmsOf [1] /
          rmsOf ((⟨1, 1, 1, true⟩ : Overdrive).processedData [1])) 100 ∧
      (⟨1, 1, 1, true⟩ : Overdrive).finalScaleFactor [1] ≤ 100) := by
  have hrms1 : rmsOf [1] = 1 := by
    simp [rmsOf, listMean]
  have hclip : (⟨1, 1, 1, 1, none, 1, true, [], [], []⟩ : Distortion).clippedData [1] = [1] := by
    simp [Distortion.clippedData, clip]
  have htanh : Real.tanh 1 > 1 / 10 ^ 9 := by
    rw [Real.tanh_eq_sinh_div_cosh, Real.sinh_eq, Real.cosh_eq]
    have he : (2.7182818283 : ℝ) < Real.exp 1 := Real.exp_one_gt_d9
    have he2 : Real.exp 1 < 2.7182818286 := Real.exp_one_lt_d9
    have hinv : Real.exp (-1) = (Real.exp 1)⁻¹ := by
      rw [Real.exp_neg]
    have hpos : (0 : ℝ) < Real.exp 1 := Real.exp_pos 1
    rw [hinv]
    rw [gt_iff_lt, div_lt_div_iff₀ (by norm_num) (by positivity)]
    have hinvlt : (Real.exp 1)⁻¹ < 1 := by
      rw [inv_lt_one_iff₀]; right; linarith
    have hinvpos : (0 : ℝ) < (Real.exp 1)⁻¹ := by positivity
    nlinarith
  have hproc : rmsOf ((⟨1, 1, 1, true⟩ : Overdrive).processedData [1]) = Real.tanh 1 := by
    have : Real.tanh (1 * 1) = Real.tanh 1 := by norm_num
    simp only [Overdrive.processedData, List.map_cons, List.map_nil, this]
    simp [rmsOf, listMean]
    exact Real.sqrt_sq (by positivity)
  constructor
  · exact auto_gain_scale_is_capped_ratio.1 _ [1] rfl (by rw [hrms1]; norm_num)
      (by rw [hclip, hrms1]; norm_num)
  · exact auto_gain_scale_is_capped_ratio.2 _ [1] rfl (by rw [hrms1]; norm_num)
      (by rw [hproc]; exact htanh)

/-- C3 (amended): `Overdrive.process` always returns samples in `[-1, 1]`,
and so does `Distortion.process` whenever the post-clip highpass filter is
disabled (`filter_cutoff_freq` is `None`); when the filter is enabled it
runs after the `[-1, 1]` clamp, so the bound is not guaranteed (see the
counterexample).  The `samplerate ≠ 0` hypotheses reflect the dead
fail-soft branch: the constructors reject non-positive sample rates. -/
theorem gain_stage_output_in_unit_interval :
    (∀ (o : Overdrive) (xs : List ℝ), o.samplerate ≠ 0 →
        ∀ v ∈ o.process xs, -1 ≤ v ∧ v ≤ 1) ∧
    (∀ (d : Distortion) (xs : List ℝ), d.samplerate ≠ 0 → d.filter_cutoff_freq = none →
        ∀ v ∈ (d.process xs).2, -1 ≤ v ∧ v ≤ 1) := by
  constructor
  · intro o xs h v hv
    rw [Overdrive.process, if_neg h] at hv
    obtain ⟨w, -, rfl⟩ := List.mem_map.mp hv
    exact clip_bounds (by norm_num) _
  · intro d xs h hnone v hv
    rw [Distortion.process, if_neg h] at hv
    simp only [hnone, Option.isSome_none, Bool.false_eq_true, if_false] at hv
    obtain ⟨w, -, rfl⟩ := List.mem_map.mp hv
    exact clip_bounds (by norm_num) _

/-- Witness for `gain_stage_output_in_unit_interval` at the one-sample
chunk `[2]` with unit parameters. -/
theorem gain_stage_output_in_unit_interval_witness :
    (-1 ≤ ((⟨1, 1, 1, false⟩ : Overdrive).process [2]).getD 0 0 ∧
      ((⟨1, 1, 1, false⟩ : Overdrive).process [2]).getD 0 0 ≤ 1) ∧
    (-1 ≤ (((⟨1, 1, 1, 1, none, 1, false, [], [], []⟩ : Distortion).process [2]).2).getD 0 0 ∧
      (((⟨1, 1, 1, 1, none, 1, false, [], [], []⟩ : Distortion).process [2]).2).getD 0 0 ≤ 1) := by
  constructor
  · apply gain_stage_output_in_unit_interval.1 ⟨1, 1, 1, false⟩ [2] (by norm_num)
    simp [Overdrive.process, Overdrive.processedData]
  · apply gain_stage_output_in_unit_interval.2
      (⟨1, 1, 1, 1, none, 1, false, [], [], []⟩ : Distortion) [2] (by norm_num) rfl
    simp [Distortion.process, Distortion.clippedData]

/-- C3 counterexample: `Distortion` at 6000 Hz with threshold 1, unit pre-
and postgain, a 1000 Hz post-clip highpass of order 1 and no auto gain,
fed the already-in-range chunk `[-1, 1]`: the clamp leaves the chunk at
`[-1, 1]`, but the subsequent highpass filter outputs
`(3·√3 - 3)/2 ≈ 1.098 > 1` as its second sample, so not every returned
sample lies in `[-1, 1]`. -/
theorem distortion_filter_output_exceeds_one :
    1 < (((Distortion.mk1 6000 1 1 1 1000 false).process [-1, 1]).2).getD 1 0 := by
  have hs3 : Real.sqrt 3 ^ 2 = 3 := Real.sq_sqrt (by norm_num)
  have hs3pos : (0 : ℝ) < Real.sqrt 3 := Real.sqrt_pos.mpr (by norm_num)
  have hs3gt : (17 / 10 : ℝ) < Real.sqrt 3 := by nlinarith
  have hs3lt : Real.sqrt 3 < 2 := by nlinarith
  have hnc : HighpassFilter.normalCutoff ((6000 : ℕ) : ℝ) 1000 = 1 / 3 := by
    rw [HighpassFilter.normalCutoff]
    rw [show (1000 : ℝ) / (1 / 2 * ((6000 : ℕ) : ℝ)) = 1 / 3 by push_cast; norm_num]
    rw [max_eq_left (by norm_num)]
  have hwarp : butterWarp (1 / 3) = 1 / Real.sqrt 3 := by
    rw [butterWarp]
    rw [show Real.pi * (1 / 3) / 2 = Real.pi / 6 by ring]
    rw [Real.tan_pi_div_six]
  have hmk : Distortion.mk1 6000 1 1 1 1000 false =
      { samplerate := 6000, threshold := 1, pregain := 1, postgain := 1,
        filter_cutoff_freq := some 1000, filter_order := 1,
        auto_gain_compensation := false,
        hp_b := butter1HighpassB (1 / 3), hp_a := butter1HighpassA (1 / 3),
        hp_zi := [0] } := by
    rw [Distortion.mk1]
    rw [hnc]
    rw [Distortion.validate]
    have hc : (0 : ℝ) < 1000 ∧ (1000 : ℝ) < ((6000 : ℕ) : ℝ) / 2 := by push_cast; norm_num
    norm_num [hc, lfiltic, butter1HighpassB, butter1HighpassA]
  rw [hmk]
  rw [Distortion.process]
  rw [if_neg (by norm_num)]
  simp only [Distortion.clippedData, Distortion.finalScaleFactor, List.map_cons, List.map_nil,
    Bool.false_eq_true, false_and, if_false, Option.isSome_some, if_true,
    butter1HighpassB, butter1HighpassA, hwarp, lfilter, lfilterStep]
  norm_num [clip]
  have hne : Real.sqrt 3 ≠ 0 := ne_of_gt hs3pos
  have hden : (0 : ℝ) < 1 + (Real.sqrt 3)⁻¹ := by positivity
  rw [← sub_pos]
  field_simp
  nlinarith

/-- C10: `Distortion.set_parameters` with a new, valid `filter_cutoff_freq`
stores the new cutoff but leaves the constructor-built highpass filter —
its coefficients and carried state — untouched, so subsequent `process`
calls keep filtering with the construction-time design; the updated value
only decides whether the filter branch runs. -/
theorem set_parameters_keeps_construction_filter (d : Distortion) (c : ℝ)
    (h1 : 0 < c) (h2 : c < (d.samplerate : ℝ) / 2) :
    (d.setParameters none none none (some c) none none).hp_b = d.hp_b ∧
    (d.setParameters none none none (some c) none none).hp_a = d.hp_a ∧
    (d.setParameters none none none (some c) none none).hp_zi = d.hp_zi ∧
    (d.setParameters none none none (some c) none none).filter_cutoff_freq = some c := by
  rw [Distortion.setParameters, Distortion.validate]
  simp only [Option.getD_none]
  split_ifs <;> simp_all

/-- Witness for `set_parameters_keeps_construction_filter`: updating the
cutoff to 10 Hz on a 100 Hz-sample-rate instance. -/
theorem set_parameters_keeps_construction_filter_witness :
    ((⟨100, 1, 1, 1, some 30, 1, false, [2], [3], [4]⟩ : Distortion).setParameters
        none none none (some 10) none none).hp_b = [2] ∧
    ((⟨100, 1, 1, 1, some 30, 1, false, [2], [3], [4]⟩ : Distortion).setParameters
        none none none (some 10) none none).hp_a = [3] ∧
    ((⟨100, 1, 1, 1, some 30, 1, false, [2], [3], [4]⟩ : Distortion).setParameters
        none none none (some 10) none none).hp_zi = [4] ∧
    ((⟨100, 1, 1, 1, some 30, 1, false, [2], [3], [4]⟩ : Distortion).setParameters
        none none none (some 10) none none).filter_cutoff_freq = some 10 :=
  set_parameters_keeps_construction_filter
    (⟨100, 1, 1, 1, some 30, 1, false, [2], [3], [4]⟩ : Distortion) 10
    (by norm_num) (by push_cast; norm_num)

/-! ### Noise reduction, `src/effect/dynamics/noise_reduction.py` -/

/-- `scipy.signal.windows.hann(M)` (symmetric):
`w[n] = 0.5·(1 - cos(2πn/(M-1)))`. -/
def hannWindow (M : ℕ) : List ℝ :=
  (List.range M).map fun n => 1 / 2 * (1 - Real.cos (2 * Real.pi * n / ((M : ℝ) - 1)))

/-- `numpy.fft.irfft` on `X` (bins `0..N/2`): the inverse real DFT,
reconstructed through the Hermitian extension of the spectrum. -/
def irfft (X : List ℂ) : List ℝ :=
  (List.range (2 * (X.length - 1))).map fun n =>
    ((1 / (2 * (X.length - 1) : ℝ) : ℂ) *
      ∑ k ∈ Finset.range (2 * (X.length - 1)),
        (if k < X.length then X.getD k 0
         else (starRingEnd ℂ) (X.getD (2 * (X.length - 1) - k) 0)) *
          Complex.exp (2 * Real.pi * Complex.I * k * n / (2 * (X.length - 1)))).re

/-- The state of `NoiseReduction`: the learned per-bin noise profile and
counter, the raw-input overlap carry and the processed-frame carry. -/
structure NoiseReduction where
  samplerate : ℕ
  chunk_size : ℕ
  learning_frames : ℕ
  frames_learned : ℕ
  noise_profile : List ℝ
  window : List ℝ
  overlap_buffer : List ℝ
  prev_processed_overlap : List ℝ

/-- `NoiseReduction.__init__`: zero profile of length `fft_size//2 + 1`
(`fft_size = 2·chunk_size`), a Hann window of the full frame length, and
zeroed overlap buffers. -/
def NoiseReduction.init (sr cs lf : ℕ) : NoiseReduction :=
  { samplerate := sr
    chunk_size := cs
    learning_frames := lf
    frames_learned := 0
    noise_profile := List.replicate (2 * cs / 2 + 1) 0
    window := hannWindow (2 * cs)
    overlap_buffer := List.replicate cs 0
    prev_processed_overlap := List.replicate cs 0 }

/-- `NoiseReduction.process(audio_data, is_speech)`: learning branch
(non-speech while `frames_learned < learning_frames`), Wiener suppression
branch (`frames_learned ≥ learning_frames`), else pass-through. -/
def NoiseReduction.process (st : NoiseReduction) (audio_data : List ℝ) (is_speech : Bool) :
    NoiseReduction × List ℝ :=
  if is_speech = false ∧ st.frames_learned < st.learning_frames then
    let full_frame := st.overlap_buffer ++ audio_data
    let windowed := List.zipWith (fun u v => u * v) full_frame st.window
    let fft_magnitude := (rfft windowed).map Complex.abs
    let profile := List.zipWith
        (fun p m => (p * (st.frames_learned : ℝ) + m) / ((st.frames_learned : ℝ) + 1))
        st.noise_profile fft_magnitude
    ({ st with noise_profile := profile, frames_learned := st.frames_learned + 1 },
      audio_data)
  else if st.learning_frames ≤ st.frames_learned then
    let full_frame := st.overlap_buffer ++ audio_data
    let windowed := List.zipWith (fun u v => u * v) full_frame st.window
    let fftd := rfft windowed
    let mag : List ℝ := fftd.map Complex.abs
    let phase : List ℝ := fftd.map Complex.arg
    let snr : List ℝ := List.zipWith (fun m p => m ^ 2 / (p ^ 2 + 1 / 10 ^ 10)) mag st.noise_profile
    let gainMask : List ℝ := snr.map (fun s => s / (s + 1))
    let pm : List ℝ := List.zipWith (fun u v => u * v) mag gainMask
    let pfft : List ℂ :=
      List.zipWith (fun m ph => (m : ℂ) * Complex.exp (Complex.I * (ph : ℂ))) pm phase
    let processed_full := irfft pfft
    let wa := st.window.take st.chunk_size
    let wb := st.window.drop st.chunk_size
    let wsum := List.zipWith (fun u v => u + v) wa wb
    let out := List.zipWith (fun p w => p / w)
        (List.zipWith (fun u v => u + v)
          (List.zipWith (fun u v => u * v) (processed_full.take st.chunk_size) wa)
          (List.zipWith (fun u v => u * v) st.prev_processed_overlap wb)) wsum
    ({ st with prev_processed_overlap := processed_full.drop st.chunk_size,
               overlap_buffer := audio_data }, out)
  else (st, audio_data)

/-- C7: while `frames_learned < learning_frames`, `NoiseReduction.process`
returns the input chunk exactly, for every chunk and for both speech and
non-speech flags (the learning branch and the pre-learning speech branch
both return `audio_data` unchanged). -/
theorem noise_reduction_learning_passthrough (st : NoiseReduction) (xs : List ℝ) (s : Bool)
    (h : st.frames_learned < st.learning_frames) :
    (st.process xs s).2 = xs := by
  rw [NoiseReduction.process]
  split_ifs with h1 h2
  · rfl
  · omega
  · rfl

/-- Witness for `noise_reduction_learning_passthrough`: a fresh instance
with `learning_frames = 2` passes the chunk `[5]` through on a speech
frame. -/
theorem noise_reduction_learning_passthrough_witness :
    ((NoiseReduction.init 1 1 2).process [5] true).2 = [5] :=
  noise_reduction_learning_passthrough (NoiseReduction.init 1 1 2) [5] true
    (by simp [NoiseReduction.init])

/-- C8: `frames_learned` never decreases across a `process` call, never
exceeds `learning_frames` when it starts at or below it, and once
`frames_learned ≥ learning_frames` the call leaves both `noise_profile`
and `frames_learned` unchanged — the learning-to-suppression transition is
one-way and permanent. -/
theorem noise_learner_one_way (st : NoiseReduction) (xs : List ℝ) (s : Bool) :
    st.frames_learned ≤ (st.process xs s).1.frames_learned ∧
    (st.frames_learned ≤ st.learning_frames →
      (st.process xs s).1.frames_learned ≤ st.learning_frames) ∧
    (st.learning_frames ≤ st.frames_learned →
      (st.process xs s).1.noise_profile = st.noise_profile ∧
      (st.process xs s).1.frames_learned = st.frames_learned) := by
  rw [NoiseReduction.process]
  split_ifs with h1 h2
  · refine ⟨by simp, fun h => by simp; omega, fun h => by omega⟩
  · exact ⟨le_refl _, fun h => h, fun h => ⟨rfl, rfl⟩⟩
  · exact ⟨le_refl _, fun h => h, fun h => ⟨rfl, rfl⟩⟩

/-- Witness for `noise_learner_one_way`: an already-frozen instance
(`learning_frames = 0`) on a non-speech chunk keeps its profile and
counter, and an in-bounds counter stays in bounds. -/
theorem noise_learner_one_way_witness :
    ((NoiseReduction.init 1 1 0).process [2] false).1.frames_learned ≤
      (NoiseReduction.init 1 1 0).learning_frames ∧
    ((NoiseReduction.init 1 1 0).process [2] false).1.noise_profile =
      (NoiseReduction.init 1 1 0).noise_profile ∧
    ((NoiseReduction.init 1 1 0).process [2] false).1.frames_learned =
      (NoiseReduction.init 1 1 0).frames_learned := by
  have h := noise_learner_one_way (NoiseReduction.init 1 1 0) [2] false
  exact ⟨h.2.1 (le_refl _), h.2.2 (le_refl _)⟩

/-! ### Delay line, `src/effect/spatial/Delay.py` -/

/-- The state of `Delay`: the circular buffer, its write cursor, and the
validated parameters. -/
structure Delay where
  samplerate : ℕ
  max_delay_samples : ℕ
  delay_buffer : List ℝ
  delay_buffer_pos : ℕ
  delay_time_ms : ℝ
  feedback : ℝ
  dry_wet_mix : ℝ

/-- `Delay._validate_params`: non-positive delay time, feedback outside
`[0, 1)` and mix outside `[0, 1]` are replaced by the defaults. -/
def Delay.validate (d : Delay) : Delay :=
  let d1 := if d.delay_time_ms ≤ 0 then { d with delay_time_ms := 300 } else d
  let d2 := if ¬(0 ≤ d1.feedback ∧ d1.feedback < 1) then { d1 with feedback := 1 / 2 } else d1
  if ¬(0 ≤ d2.dry_wet_mix ∧ d2.dry_wet_mix ≤ 1) then { d2 with dry_wet_mix := 1 / 2 } else d2

/-- `Delay.__init__`: a zeroed buffer of `int(samplerate*max_delay_time_s)`
samples, cursor at 0, then parameter validation. -/
def Delay.init (sr : ℕ) (max_delay_time_s delay_time_ms fb mix : ℝ) : Delay :=
  Delay.validate
    { samplerate := sr
      max_delay_samples := (truncInt ((sr : ℝ) * max_delay_time_s)).toNat
      delay_buffer := List.replicate (truncInt ((sr : ℝ) * max_delay_time_s)).toNat 0
      delay_buffer_pos := 0
      delay_time_ms := delay_time_ms
      feedback := fb
      dry_wet_mix := mix }

/-- `delay_samples` as computed at the top of `Delay.process`:
`int(samplerate*(delay_time_ms/1000.0))`, clamped to `max_delay_samples-1`
from above and to 0 from below. -/
def Delay.effectiveDelaySamples (d : Delay) : ℤ :=
  let ds := truncInt ((d.samplerate : ℝ) * (d.delay_time_ms / 1000))
  let ds2 := if (d.max_delay_samples : ℤ) ≤ ds then (d.max_delay_samples : ℤ) - 1 else ds
  if ds2 < 0 then 0 else ds2

/-- The per-sample body of the `Delay.process` loop: read the delayed
sample, write input plus scaled feedback at the cursor, advance the
cursor, and emit the dry/wet mix. -/
def Delay.sampleStep (d : Delay) (ds : ℕ) (x : ℝ) : Delay × ℝ :=
  let read_pos := (d.delay_buffer_pos + d.max_delay_samples - ds) % d.max_delay_samples
  let delayed := d.delay_buffer.getD read_pos 0
  ({ d with
      delay_buffer := d.delay_buffer.set d.delay_buffer_pos (x + delayed * d.feedback)
      delay_buffer_pos := (d.delay_buffer_pos + 1) % d.max_delay_samples },
   x * (1 - d.dry_wet_mix) + delayed * d.dry_wet_mix)

/-- The `Delay.process` sample loop over a chunk at fixed `delay_samples`. -/
def Delay.processFrom (d : Delay) (ds : ℕ) : List ℝ → Delay × List ℝ
  | [] => (d, [])
  | x :: xs =>
    let s := d.sampleStep ds x
    let rest := s.1.processFrom ds xs
    (rest.1, s.2 :: rest.2)

/-- `Delay.process`: recompute the clamped `delay_samples`, then loop. -/
def Delay.process (d : Delay) (xs : List ℝ) : Delay × List ℝ :=
  d.processFrom d.effectiveDelaySamples.toNat xs

/-- A sequence of `Delay.process` calls, collecting the output chunks. -/
def Delay.runChunks (d : Delay) : List (List ℝ) → Delay × List (List ℝ)
  | [] => (d, [])
  | c :: cs =>
    let r := d.process c
    let rest := r.1.runChunks cs
    (rest.1, r.2 :: rest.2)

/-- The global index of the most recent write into circular-buffer slot
`j` before time `k` (or a negative number if the slot is untouched). -/
def lastWrite (cap k j : ℕ) : ℤ := (k : ℤ) - 1 - (((k : ℤ) - 1 - (j : ℤ)) % (cap : ℤ))

/-- The value held by slot `j` after the first `k` samples of the input
stream `X` have been processed with zero feedback. -/
def histVal (X : List ℝ) (cap k j : ℕ) : ℝ :=
  if 0 ≤ lastWrite cap k j then X.getD (lastWrite cap k j).toNat 0 else 0

theorem emod_sub_right (a b c : ℤ) : (a - b % c) % c = (a - b) % c := by
  conv_lhs => rw [Int.sub_emod]
  rw [Int.emod_emod_of_dvd _ dvd_rfl, ← Int.sub_emod]

theorem emod_pred {c : ℤ} (hc : 0 < c) (m : ℤ) (hne : m % c ≠ 0) :
    (m - 1) % c = m % c - 1 := by
  have h1 : 0 ≤ m % c := Int.emod_nonneg m (ne_of_gt hc)
  have h2 : m % c < c := Int.emod_lt_of_pos m hc
  have key : (m - 1) % c = (m % c - 1) % c := by
    conv_lhs => rw [Int.sub_emod]
    conv_rhs => rw [Int.sub_emod, Int.emod_emod_of_dvd _ dvd_rfl]
  rw [key, Int.emod_eq_of_lt (by omega) (by omega)]

/-- The slot read by the delay loop holds the input from `ds` samples
ago (or the initial zero when fewer than `ds` samples have been seen). -/
theorem histVal_read (X : List ℝ) (cap ds k : ℕ) (hcap : 0 < cap)
    (hds1 : 1 ≤ ds) (hds2 : ds < cap) :
    histVal X cap k ((k % cap + cap - ds) % cap) =
      if ds ≤ k then X.getD (k - ds) 0 else 0 := by
  have hc : (0 : ℤ) < (cap : ℤ) := by exact_mod_cast hcap
  have hcast : (((k % cap + cap - ds) % cap : ℕ) : ℤ) =
      ((k : ℤ) % cap + cap - ds) % cap := by
    have hle : ds ≤ k % cap + cap := le_add_left hds2.le
    push_cast [Nat.cast_sub hle]
    ring_nf
  have hlw : lastWrite cap k ((k % cap + cap - ds) % cap) = (k : ℤ) - ds := by
    rw [lastWrite, hcast, emod_sub_right]
    have hrw : (k : ℤ) - 1 - ((k : ℤ) % cap + cap - ds) =
        (ds - 1) + (cap : ℤ) * ((k : ℤ) / cap - 1) := by
      rw [Int.emod_def]
      ring
    rw [hrw, Int.add_mul_emod_self_left, Int.emod_eq_of_lt (by omega) (by omega)]
    ring
  rw [histVal, hlw]
  by_cases h : ds ≤ k
  · rw [if_pos (by omega), if_pos h]
    congr 1
    omega
  · rw [if_neg (by omega), if_neg h]

/-- After writing sample `k` at slot `k % cap`, that slot's history value
is that sample. -/
theorem histVal_succ_self (X : List ℝ) (cap k : ℕ) (hcap : 0 < cap) :
    histVal X cap (k + 1) (k % cap) = X.getD k 0 := by
  have hc : (0 : ℤ) < (cap : ℤ) := by exact_mod_cast hcap
  have hlw : lastWrite cap (k + 1) (k % cap) = (k : ℤ) := by
    rw [lastWrite]
    push_cast
    rw [show (k : ℤ) + 1 - 1 - (k : ℤ) % cap = (k : ℤ) - (k : ℤ) % cap by ring]
    rw [emod_sub_right, sub_self, Int.zero_emod]
    ring
  rw [histVal, hlw, if_pos (by omega)]
  rfl

/-- Slots other than the one written keep their history value. -/
theorem histVal_succ_other (X : List ℝ) (cap k j : ℕ) (hcap : 0 < cap)
    (hj : j < cap) (hne : j ≠ k % cap) :
    histVal X cap (k + 1) j = histVal X cap k j := by
  have hc : (0 : ℤ) < (cap : ℤ) := by exact_mod_cast hcap
  have hr : ((k : ℤ) - j) % cap ≠ 0 := by
    intro h0
    obtain ⟨t, ht⟩ := Int.dvd_of_emod_eq_zero h0
    have hk : (k : ℤ) = (j : ℤ) + (cap : ℤ) * t := by omega
    have hkm : (k : ℤ) % cap = (j : ℤ) := by
      rw [hk, Int.add_mul_emod_self_left, Int.emod_eq_of_lt (by omega) (by omega)]
    have hbr : ((k % cap : ℕ) : ℤ) = (k : ℤ) % (cap : ℤ) := by push_cast; ring
    omega
  have heq : lastWrite cap (k + 1) j = lastWrite cap k j := by
    rw [lastWrite, lastWrite]
    push_cast
    rw [show (k : ℤ) + 1 - 1 - (j : ℤ) = (k : ℤ) - j by ring,
      show (k : ℤ) - 1 - (j : ℤ) = ((k : ℤ) - j) - 1 by ring,
      emod_pred hc _ hr]
    ring
  rw [histVal, histVal, heq]

/-- The sample loop of `Delay.process`, with zero feedback, from a state
whose buffer holds the last `cap` input samples: each output is the
dry/wet mix of the current input with the input `ds` samples earlier. -/
theorem processFrom_spec (X : List ℝ) (cap ds : ℕ) (hcap : 0 < cap)
    (hds1 : 1 ≤ ds) (hds2 : ds < cap) :
    ∀ (rest : List ℝ) (k : ℕ) (d : Delay),
      d.max_delay_samples = cap →
      d.feedback = 0 →
      d.delay_buffer.length = cap →
      d.delay_buffer_pos = k % cap →
      (∀ j, j < cap → d.delay_buffer.getD j 0 = histVal X cap k j) →
      rest = X.drop k →
      ∀ m, m < rest.length →
        (d.processFrom ds rest).2.getD m 0 =
          X.getD (k + m) 0 * (1 - d.dry_wet_mix) +
          (if ds ≤ k + m then X.getD (k + m - ds) 0 else 0) * d.dry_wet_mix := by
  intro rest
  induction rest with
  | nil =>
    intro k d _ _ _ _ _ _ m hm
    simp at hm
  | cons x rest ih =>
    intro k d hmax hfb hlen hpos hbuf hdrop m hm
    have hkX : k < X.length := by
      by_contra hkk
      rw [List.drop_eq_nil_of_le (by omega)] at hdrop
      simp at hdrop
    rw [List.drop_eq_getElem_cons hkX] at hdrop
    have hXk : X.getD k 0 = x := by
      rw [List.getD_eq_getElem X 0 hkX]
      exact (List.cons.injEq .. |>.mp hdrop.symm).1
    have hrest : rest = X.drop (k + 1) := (List.cons.injEq .. |>.mp hdrop.symm).2.symm
    have hrp : (d.delay_buffer_pos + d.max_delay_samples - ds) % d.max_delay_samples
        = (k % cap + cap - ds) % cap := by rw [hpos, hmax]
    have hdelayed : d.delay_buffer.getD
        ((d.delay_buffer_pos + d.max_delay_samples - ds) % d.max_delay_samples) 0 =
        (if ds ≤ k then X.getD (k - ds) 0 else 0) := by
      rw [hrp, hbuf _ (Nat.mod_lt _ hcap), histVal_read X cap ds k hcap hds1 hds2]
    simp only [Delay.processFrom]
    match m, hm with
    | 0, _ =>
      simp only [List.getD_cons_zero, Delay.sampleStep, hdelayed, Nat.add_zero, hXk]
    | Nat.succ m, hm =>
      simp only [List.getD_cons_succ]
      have hstep : (d.sampleStep ds x).1 =
          { d with
              delay_buffer := d.delay_buffer.set d.delay_buffer_pos
                (x + (if ds ≤ k then X.getD (k - ds) 0 else 0) * d.feedback)
              delay_buffer_pos := (d.delay_buffer_pos + 1) % d.max_delay_samples } := by
        rw [Delay.sampleStep, hdelayed]
      rw [hstep]
      have hres := ih (k + 1)
        { d with
          delay_buffer := d.delay_buffer.set d.delay_buffer_pos
            (x + (if ds ≤ k then X.getD (k - ds) 0 else 0) * d.feedback)
          delay_buffer_pos := (d.delay_buffer_pos + 1) % d.max_delay_samples }
        hmax hfb (by simpa using hlen)
        (by simp only [hpos, hmax]; exact Nat.mod_add_mod k cap 1)
        ?_ hrest m (by simp only [List.length_cons] at hm; omega)
      · rw [hres]
        have hidx : k + 1 + m = k + (m + 1) := by omega
        rw [hidx]
      · intro j hj
        simp only
        by_cases hji : j = k % cap
        · subst hji
          have hsetp : (d.delay_buffer.set d.delay_buffer_pos
              (x + (if ds ≤ k then X.getD (k - ds) 0 else 0) * d.feedback)).getD (k % cap) 0 =
              x + (if ds ≤ k then X.getD (k - ds) 0 else 0) * d.feedback := by
            rw [hpos, List.getD_eq_getElem?_getD,
              List.getElem?_set_eq_of_lt _ (by rw [hlen]; exact Nat.mod_lt _ hcap)]
            rfl
          rw [hsetp, hfb, mul_zero, add_zero, ← hXk]
          exact (histVal_succ_self X cap k hcap).symm
        · have hsetne : (d.delay_buffer.set d.delay_buffer_pos
              (x + (if ds ≤ k then X.getD (k - ds) 0 else 0) * d.feedback)).getD j 0 =
              d.delay_buffer.getD j 0 := by
            rw [List.getD_eq_getElem?_getD,
              List.getElem?_set_ne (by rw [hpos]; exact fun h => hji h.symm),
              ← List.getD_eq_getElem?_getD]
          rw [hsetne, hbuf j hj]
          exact (histVal_succ_other X cap k j hcap hj hji).symm

/-- The sample loop never changes the delay parameters, so the clamped
`delay_samples` recomputed by the next `process` call is unchanged. -/
theorem processFrom_params (ds : ℕ) (xs : List ℝ) : ∀ (d : Delay),
    (d.processFrom ds xs).1.samplerate = d.samplerate ∧
    (d.processFrom ds xs).1.max_delay_samples = d.max_delay_samples ∧
    (d.processFrom ds xs).1.delay_time_ms = d.delay_time_ms ∧
    (d.processFrom ds xs).1.feedback = d.feedback ∧
    (d.processFrom ds xs).1.dry_wet_mix = d.dry_wet_mix := by
  induction xs with
  | nil => intro d; exact ⟨rfl, rfl, rfl, rfl, rfl⟩
  | cons x xs ih =>
    intro d
    simp only [Delay.processFrom]
    exact ih _

theorem processFrom_eff (ds : ℕ) (xs : List ℝ) (d : Delay) :
    (d.processFrom ds xs).1.effectiveDelaySamples = d.effectiveDelaySamples := by
  obtain ⟨h1, h2, h3, -, -⟩ := processFrom_params ds xs d
  rw [Delay.effectiveDelaySamples, Delay.effectiveDelaySamples, h1, h2, h3]

/-- The sample loop over a concatenation is the loop over the parts. -/
theorem processFrom_append (ds : ℕ) (xs ys : List ℝ) : ∀ (d : Delay),
    d.processFrom ds (xs ++ ys) =
      (((d.processFrom ds xs).1.processFrom ds ys).1,
        (d.processFrom ds xs).2 ++ ((d.processFrom ds xs).1.processFrom ds ys).2) := by
  induction xs with
  | nil => intro d; simp [Delay.processFrom]
  | cons x xs ih =>
    intro d
    simp only [List.cons_append, Delay.processFrom]
    rw [List.append_eq, ih]

/-- Flattening the outputs of a sequence of `process` calls gives the
sample loop over the flattened input. -/
theorem runChunks_flatten (chunks : List (List ℝ)) : ∀ (d : Delay),
    ((d.runChunks chunks).2).flatten =
      (d.processFrom d.effectiveDelaySamples.toNat chunks.flatten).2 := by
  induction chunks with
  | nil => intro d; simp [Delay.runChunks, Delay.processFrom]
  | cons c cs ih =>
    intro d
    simp only [Delay.runChunks, Delay.process, List.flatten_cons]
    rw [ih, processFrom_eff, processFrom_append]

/-- C9: a freshly constructed `Delay` (zeroed buffer, cursor 0) with
`feedback = 0` and a positive in-range effective delay `ds` produces, over
any sequence of `process` calls, the pure time-shift mix
`out[i] = in[i]·(1 - mix) + in[i - ds]·mix` (with `in[j] = 0` for
`j < ds`) of the flattened input — no accumulation occurs. -/
theorem delay_zero_feedback_is_pure_time_shift (d : Delay) (chunks : List (List ℝ)) (i : ℕ)
    (hbuf : d.delay_buffer = List.replicate d.max_delay_samples 0)
    (hpos : d.delay_buffer_pos = 0)
    (hfb : d.feedback = 0)
    (hds1 : 1 ≤ d.effectiveDelaySamples.toNat)
    (hds2 : d.effectiveDelaySamples.toNat < d.max_delay_samples)
    (hi : i < chunks.flatten.length) :
    ((d.runChunks chunks).2).flatten.getD i 0 =
      chunks.flatten.getD i 0 * (1 - d.dry_wet_mix) +
      (if d.effectiveDelaySamples.toNat ≤ i then
        chunks.flatten.getD (i - d.effectiveDelaySamples.toNat) 0 else 0) * d.dry_wet_mix := by
  have hcap : 0 < d.max_delay_samples := by omega
  rw [runChunks_flatten]
  have h0 := processFrom_spec chunks.flatten d.max_delay_samples
    d.effectiveDelaySamples.toNat hcap hds1 hds2 chunks.flatten 0 d rfl hfb
    (by rw [hbuf, List.length_replicate])
    (by rw [hpos, Nat.zero_mod])
    ?_ (by rw [List.drop_zero]) i hi
  · rw [h0]
    simp only [Nat.zero_add]
  · intro j hj
    rw [hbuf]
    have hz : (List.replicate d.max_delay_samples (0 : ℝ)).getD j 0 = 0 := by
      rcases lt_or_le j d.max_delay_samples with h | h
      · rw [List.getD_eq_getElem _ _ (by simpa using h), List.getElem_replicate]
      · exact List.getD_eq_default _ _ (by simpa using h)
    rw [hz, histVal]
    have hc : (0 : ℤ) < (d.max_delay_samples : ℤ) := by exact_mod_cast hcap
    rw [if_neg]
    have hnn : 0 ≤ (-1 - (j : ℤ)) % (d.max_delay_samples : ℤ) :=
      Int.emod_nonneg _ (ne_of_gt hc)
    rw [lastWrite]
    push_cast
    omega

/-- Witness for `delay_zero_feedback_is_pure_time_shift`: a 1000 Hz
Delay with a 4-sample buffer, 1 ms (= 1 sample) delay, zero feedback and
half mix, over the call sequence `[[1, 2], [3]]`, at output index 1. -/
theorem delay_zero_feedback_is_pure_time_shift_witness :
    (((Delay.init 1000 (1 / 250) 1 0 (1 / 2)).runChunks [[1, 2], [3]]).2).flatten.getD 1 0 =
      ([[1, 2], [3]] : List (List ℝ)).flatten.getD 1 0 *
        (1 - (Delay.init 1000 (1 / 250) 1 0 (1 / 2)).dry_wet_mix) +
      (if (Delay.init 1000 (1 / 250) 1 0 (1 / 2)).effectiveDelaySamples.toNat ≤ 1 then
        ([[1, 2], [3]] : List (List ℝ)).flatten.getD
          (1 - (Delay.init 1000 (1 / 250) 1 0 (1 / 2)).effectiveDelaySamples.toNat) 0 else 0) *
        (Delay.init 1000 (1 / 250) 1 0 (1 / 2)).dry_wet_mix := by
  have htr : truncInt ((1000 : ℕ) * (1 / 250) : ℝ) = 4 := by
    rw [truncInt, if_pos (by norm_num)]
    rw [show (((1000 : ℕ) : ℝ) * (1 / 250)) = ((4 : ℤ) : ℝ) by push_cast; norm_num]
    exact Int.floor_intCast 4
  have hinit : Delay.init 1000 (1 / 250) 1 0 (1 / 2) =
      { samplerate := 1000, max_delay_samples := 4, delay_buffer := List.replicate 4 0,
        delay_buffer_pos := 0, delay_time_ms := 1, feedback := 0, dry_wet_mix := 1 / 2 } := by
    rw [Delay.init, htr, Delay.validate]
    norm_num
    rfl
  have heff : (Delay.init 1000 (1 / 250) 1 0 (1 / 2)).effectiveDelaySamples = 1 := by
    rw [hinit, Delay.effectiveDelaySamples]
    have h1 : truncInt ((1000 : ℕ) * ((1 : ℝ) / 1000)) = 1 := by
      rw [truncInt, if_pos (by norm_num)]
      rw [show (((1000 : ℕ) : ℝ) * ((1 : ℝ) / 1000)) = ((1 : ℤ) : ℝ) by push_cast; norm_num]
      exact Int.floor_intCast 1
    simp only [h1]
    norm_num
  apply delay_zero_feedback_is_pure_time_shift
  · rw [hinit]
  · rw [hinit]
  · rw [hinit]
  · rw [heff]
    norm_num
  · rw [heff, hinit]
    norm_num
  · simp

/-! ### Stream orchestrator, `src/utils/AudioProcessor.py`

`AudioProcessor.__init__` builds the bandpass filter through
`scipy.signal.butter` from the constructor's cutoffs and order (the
coefficient lists `b`, `a` are taken as parameters here, computed by the
order-1 design in `AudioProcessor.mk1`), a `NoiseReduction` with the
hard-coded `learning_frames` argument (parametrized here), and a plain
`queue.Queue()` — Python's unbounded FIFO, `maxsize = 0`.  The
`webrtcvad` voice-activity classifier and the audio driver are external
collaborators: each callback takes the classifier's boolean verdict as an
oracle argument together with the raw int16 chunk.  The `ConvolutionIR`
built in `__init__` is never used by the callback (its call is commented
out) and is omitted. -/

/-- `SPEECH_FRAME_THRESHOLD` from `AudioProcessor.__init__`. -/
def SPEECH_FRAME_THRESHOLD : ℕ := 5

/-- `MAX_VOLUME_RMS = 0.05` from `AudioProcessor.__init__`. -/
def MAX_VOLUME_RMS : ℝ := 1 / 20

/-- `POP_SILENCE_FRAMES = 10` from `AudioProcessor.__init__`. -/
def POP_SILENCE_FRAMES : ℕ := 10

/-- The `maxsize` of `queue.Queue()` as constructed for `audio_queue`:
Python's default 0, meaning the queue is unbounded. -/
def audioQueueMaxsize : ℕ := 0

/-- The per-stream state of the orchestrator. -/
structure AudioProcessor where
  samplerate : ℕ
  gain : ℝ
  chunk_size : ℕ
  speech_frame_count : ℕ
  speech_started : Bool
  noise : NoiseReduction
  pop_noise_silence_counter : ℕ
  bp_b : List ℝ
  bp_a : List ℝ
  bp_zi : List ℝ
  audio_queue : List (List ℝ)

/-- `AudioProcessor.__init__` with designed bandpass coefficients `b`, `a`. -/
def AudioProcessor.init (samplerate : ℕ) (b a : List ℝ) (chunk_size : ℕ) (gain : ℝ)
    (learning_frames : ℕ) : AudioProcessor :=
  { samplerate := samplerate
    gain := gain
    chunk_size := chunk_size
    speech_frame_count := 0
    speech_started := false
    noise := NoiseReduction.init samplerate chunk_size learning_frames
    pop_noise_silence_counter := 0
    bp_b := b
    bp_a := a
    bp_zi := lfiltic b a
    audio_queue := [] }

/-- Step 1 of the callback: decode the int16 chunk to floats. -/
def AudioProcessor.floatChunk (chunk : List ℤ) : List ℝ := chunk.map i16ToFloat

/-- The speech-gate update (lines 76-85): on speech increment the count
and open the gate at the threshold; on non-speech decrement toward zero
and close the gate when the count reaches zero. -/
def AudioProcessor.speechUpdate (st : AudioProcessor) (vad : Bool) : ℕ × Bool :=
  if vad then
    (st.speech_frame_count + 1,
      if SPEECH_FRAME_THRESHOLD ≤ st.speech_frame_count + 1 then true else st.speech_started)
  else
    (st.speech_frame_count - 1,
      if st.speech_frame_count - 1 = 0 then false else st.speech_started)

/-- The noise-reduction stage of the callback: the bandpass-filtered chunk
fed to `NoiseReduction.process` with `speech_started or is_speech_in_this_frame`
(the *updated* gate). -/
def AudioProcessor.noiseOut (st : AudioProcessor) (chunk : List ℤ) (vad : Bool) :
    NoiseReduction × List ℝ :=
  st.noise.process (lfilter st.bp_b st.bp_a st.bp_zi (floatChunk chunk)).1
    ((st.speechUpdate vad).2 || vad)

/-- The pop-detection condition (lines 99-102): `is_pop_noise` on the
rfft magnitudes of the *raw* float chunk, and the RMS of the
noise-processed chunk above `MAX_VOLUME_RMS`. -/
def AudioProcessor.popFires (st : AudioProcessor) (chunk : List ℤ) (vad : Bool) : Bool :=
  is_pop_noise (fftMagnitude (floatChunk chunk)) &&
    decide (get_rms (st.noiseOut chunk vad).2 > MAX_VOLUME_RMS)

/-- `AudioProcessor.audio_callback`: decode, bandpass-filter (updating the
carried `zi`), update the speech gate, run noise reduction, push the
processed chunk (a copy) onto the queue, run pop detection (arming the
silence counter), then the output decision in strict priority order:
pop-silence, speech (gain, quantize), noise gate. -/
def AudioProcessor.audio_callback (st : AudioProcessor) (chunk : List ℤ) (vad : Bool) :
    AudioProcessor × List ℤ :=
  let st1 := { st with
    speech_frame_count := (st.speechUpdate vad).1
    speech_started := (st.speechUpdate vad).2
    bp_zi := (lfilter st.bp_b st.bp_a st.bp_zi (floatChunk chunk)).2
    noise := (st.noiseOut chunk vad).1
    audio_queue := st.audio_queue ++ [(st.noiseOut chunk vad).2] }
  let st2 := if st.popFires chunk vad then
    { st1 with pop_noise_silence_counter := POP_SILENCE_FRAMES } else st1
  if 0 < st2.pop_noise_silence_counter then
    ({ st2 with pop_noise_silence_counter := st2.pop_noise_silence_counter - 1 },
      List.replicate chunk.length 0)
  else if st2.speech_started then
    (st2, (st.noiseOut chunk vad).2.map (fun v => floatToI16 (v * st.gain)))
  else
    (st2, List.replicate chunk.length 0)

/-- A sequence of driver callbacks: chunks paired with the external VAD
classifier's verdicts. -/
def AudioProcessor.runCallbacks (st : AudioProcessor) :
    List (List ℤ × Bool) → AudioProcessor × List (List ℤ)
  | [] => (st, [])
  | c :: cs =>
    let r := st.audio_callback c.1 c.2
    let rest := r.1.runCallbacks cs
    (rest.1, r.2 :: rest.2)

theorem getD_replicate_zero (n i : ℕ) : (List.replicate n (0 : ℝ)).getD i 0 = 0 := by
  rcases lt_or_le i n with h | h
  · rw [List.getD_eq_getElem _ _ (by simpa using h), List.getElem_replicate]
  · exact List.getD_eq_default _ _ (by simpa using h)

theorem floatChunk_zero (N : ℕ) :
    AudioProcessor.floatChunk (List.replicate N 0) = List.replicate N 0 := by
  rw [AudioProcessor.floatChunk, List.map_replicate]
  norm_num [i16ToFloat]

theorem rfftBin_zero_chunk (N k : ℕ) : rfftBin (List.replicate N (0 : ℝ)) k = 0 := by
  rw [rfftBin]
  apply Finset.sum_eq_zero
  intro n _
  rw [getD_replicate_zero]
  simp

theorem is_pop_noise_zero_chunk (N : ℕ) :
    is_pop_noise (fftMagnitude (List.replicate N 0)) = false := by
  have hsum : (fftMagnitude (List.replicate N (0 : ℝ))).sum = 0 := by
    apply List.sum_eq_zero
    intro x hx
    rw [fftMagnitude, rfft] at hx
    rw [List.map_map] at hx
    obtain ⟨k, -, rfl⟩ := List.mem_map.mp hx
    simp [rfftBin_zero_chunk]
  rw [is_pop_noise, hsum, if_pos (by norm_num)]

/-- One callback on an all-zero chunk classified as non-speech, from a
state with closed gate, zero count and idle pop guard: the output is the
all-zero chunk and the gate, count and pop guard are unchanged. -/
theorem callback_zero_nonspeech (st : AudioProcessor) (N : ℕ)
    (h1 : st.speech_frame_count = 0) (h2 : st.speech_started = false)
    (h3 : st.pop_noise_silence_counter = 0) :
    (st.audio_callback (List.replicate N 0) false).2 = List.replicate N 0 ∧
    (st.audio_callback (List.replicate N 0) false).1.speech_frame_count = 0 ∧
    (st.audio_callback (List.replicate N 0) false).1.speech_started = false ∧
    (st.audio_callback (List.replicate N 0) false).1.pop_noise_silence_counter = 0 := by
  have hfires : st.popFires (List.replicate N 0) false = false := by
    rw [AudioProcessor.popFires, floatChunk_zero, is_pop_noise_zero_chunk, Bool.false_and]
  have hsp : st.speechUpdate false = (0, false) := by
    rw [AudioProcessor.speechUpdate, if_neg (by simp)]
    rw [h1, h2]
    simp
  rw [AudioProcessor.audio_callback]
  simp only [hfires, if_false, Bool.false_eq_true, hsp, h3, List.length_replicate]
  norm_num

/-- C1: a fresh orchestrator configured with `learning_frames = 2` (any
sample rate, bandpass design and chunk size), fed 4 consecutive all-zero
chunks that the VAD classifies as non-speech (hence non-pop: the raw
spectrum is zero), outputs the input chunk unchanged for the first two
chunks (the learning-phase pass-through of a silent chunk) and the
all-zero noise-gated chunk for the last two — speech never starts, so all
four outputs equal the all-zero input chunk. -/
theorem stream_learning_scenario (sr : ℕ) (b a : List ℝ) (cs N : ℕ) (g : ℝ) :
    ((AudioProcessor.init sr b a cs g 2).runCallbacks
        (List.replicate 4 (List.replicate N 0, false))).2 =
      [List.replicate N 0, List.replicate N 0, List.replicate N 0, List.replicate N 0] := by
  have h0 : (AudioProcessor.init sr b a cs g 2).speech_frame_count = 0 ∧
      (AudioProcessor.init sr b a cs g 2).speech_started = false ∧
      (AudioProcessor.init sr b a cs g 2).pop_noise_silence_counter = 0 :=
    ⟨rfl, rfl, rfl⟩
  obtain ⟨ha1, ha2, ha3⟩ := h0
  have s1 := callback_zero_nonspeech _ N ha1 ha2 ha3
  have s2 := callback_zero_nonspeech _ N s1.2.1 s1.2.2.1 s1.2.2.2
  have s3 := callback_zero_nonspeech _ N s2.2.1 s2.2.2.1 s2.2.2.2
  have s4 := callback_zero_nonspeech _ N s3.2.1 s3.2.2.1 s3.2.2.2
  show ((AudioProcessor.init sr b a cs g 2).runCallbacks
      [(List.replicate N 0, false), (List.replicate N 0, false),
        (List.replicate N 0, false), (List.replicate N 0, false)]).2 = _
  simp only [AudioProcessor.runCallbacks]
  rw [s1.1, s2.1, s3.1, s4.1]

/-- C2 (amended): every callback pushes exactly one element — the
noise-processed chunk — onto the visualization queue; nothing is ever
dropped and nothing blocks, because the queue is `queue.Queue()` with
`maxsize = 0`, Python's unbounded queue, which is never full. -/
theorem queue_push_always_appends (st : AudioProcessor) (chunk : List ℤ) (vad : Bool) :
    (st.audio_callback chunk vad).1.audio_queue =
      st.audio_queue ++ [(st.noiseOut chunk vad).2] := by
  rw [AudioProcessor.audio_callback]
  split_ifs <;> rfl

theorem callback_queue_length (st : AudioProcessor) (chunk : List ℤ) (vad : Bool) :
    (st.audio_callback chunk vad).1.audio_queue.length = st.audio_queue.length + 1 := by
  have h : (st.audio_callback chunk vad).1.audio_queue =
      st.audio_queue ++ [(st.noiseOut chunk vad).2] := by
    rw [AudioProcessor.audio_callback]
    split_ifs <;> rfl
  rw [h, List.length_append, List.length_cons, List.length_nil]

/-- C2 counterexample: the visualization queue is *not* bounded. It is
constructed as `queue.Queue()` with Python's default `maxsize = 0`
(unbounded), and five callbacks from a fresh orchestrator leave five
chunks in the queue — strictly more than the configured `maxsize` — with
nothing dropped, so the queue grows without bound when no consumer runs. -/
theorem visualization_queue_unbounded :
    audioQueueMaxsize = 0 ∧
    ((AudioProcessor.init 8 [1] [1] 4 1 10).runCallbacks
        (List.replicate 5 (List.replicate 4 0, false))).1.audio_queue.length = 5 ∧
    audioQueueMaxsize <
      ((AudioProcessor.init 8 [1] [1] 4 1 10).runCallbacks
        (List.replicate 5 (List.replicate 4 0, false))).1.audio_queue.length := by
  have hlen : ∀ (n : ℕ) (entries : List (List ℤ × Bool)) (st : AudioProcessor),
      entries.length = n →
      (st.runCallbacks entries).1.audio_queue.length = st.audio_queue.length + n := by
    intro n
    induction n with
    | zero =>
      intro entries st he
      rw [List.length_eq_zero.mp he, AudioProcessor.runCallbacks, Nat.add_zero]
    | succ n ih =>
      intro entries st he
      match entries with
      | c :: cs =>
        simp only [AudioProcessor.runCallbacks]
        rw [ih cs _ (by simpa using he), callback_queue_length]
        omega
  have h5 := hlen 5 (List.replicate 5 (List.replicate 4 0, false))
    (AudioProcessor.init 8 [1] [1] 4 1 10) (by simp)
  refine ⟨rfl, ?_, ?_⟩
  · rw [h5]
    rfl
  · rw [h5]
    norm_num [audioQueueMaxsize]

/-! ### The order-1 Butterworth bandpass design

`BandpassFilter.__init__` calls `butter(order, [low, high], btype='band')`.
For `order = 1` the design (analog prototype pole at -1, `lp2bp` with
center `wo² = ωl·ωh` and bandwidth `bw = ωh - ωl` at the pre-warped edges
`ωl = 4·tan(π·low/2)`, `ωh = 4·tan(π·high/2)`, bilinear transform) gives
the biquad `b = [4bw, 0, -4bw]/a0`, `a = [a0, 2(wo²-16), 16-4bw+wo²]/a0`
with `a0 = 16 + 4bw + wo²`. -/

/-- Numerator coefficients of `butter(1, [wl, wh], btype='band')`. -/
def butter1BandpassB (wl wh : ℝ) : List ℝ :=
  [4 * (4 * Real.tan (Real.pi * wh / 2) - 4 * Real.tan (Real.pi * wl / 2)) /
      (16 + 4 * (4 * Real.tan (Real.pi * wh / 2) - 4 * Real.tan (Real.pi * wl / 2)) +
        4 * Real.tan (Real.pi * wl / 2) * (4 * Real.tan (Real.pi * wh / 2))),
   0,
   -(4 * (4 * Real.tan (Real.pi * wh / 2) - 4 * Real.tan (Real.pi * wl / 2))) /
      (16 + 4 * (4 * Real.tan (Real.pi * wh / 2) - 4 * Real.tan (Real.pi * wl / 2)) +
        4 * Real.tan (Real.pi * wl / 2) * (4 * Real.tan (Real.pi * wh / 2)))]

/-- Denominator coefficients of `butter(1, [wl, wh], btype='band')`. -/
def butter1BandpassA (wl wh : ℝ) : List ℝ :=
  [1,
   2 * (4 * Real.tan (Real.pi * wl / 2) * (4 * Real.tan (Real.pi * wh / 2)) - 16) /
      (16 + 4 * (4 * Real.tan (Real.pi * wh / 2) - 4 * Real.tan (Real.pi * wl / 2)) +
        4 * Real.tan (Real.pi * wl / 2) * (4 * Real.tan (Real.pi * wh / 2))),
   (16 - 4 * (4 * Real.tan (Real.pi * wh / 2) - 4 * Real.tan (Real.pi * wl / 2)) +
        4 * Real.tan (Real.pi * wl / 2) * (4 * Real.tan (Real.pi * wh / 2))) /
      (16 + 4 * (4 * Real.tan (Real.pi * wh / 2) - 4 * Real.tan (Real.pi * wl / 2)) +
        4 * Real.tan (Real.pi * wl / 2) * (4 * Real.tan (Real.pi * wh / 2)))]

/-- `AudioProcessor.__init__` with `order = 1`: clamp the normalized
cutoffs as `BandpassFilter` does, design the order-1 bandpass, zero state. -/
def AudioProcessor.mk1 (samplerate : ℕ) (lowcut highcut : ℝ) (chunk_size : ℕ) (gain : ℝ)
    (learning_frames : ℕ) : AudioProcessor :=
  AudioProcessor.init samplerate
    (butter1BandpassB (BandpassFilter.normalCutoffs samplerate lowcut highcut).1
      (BandpassFilter.normalCutoffs samplerate lowcut highcut).2)
    (butter1BandpassA (BandpassFilter.normalCutoffs samplerate lowcut highcut).1
      (BandpassFilter.normalCutoffs samplerate lowcut highcut).2)
    chunk_size gain learning_frames

/-- One zero-state identity-filter step. -/
theorem lfilterStep_id (x : ℝ) : lfilterStep [1] [1] [] x = (x, []) := by
  rw [lfilterStep]
  norm_num

/-- The identity filter `b = a = [1]` passes chunks through unchanged. -/
theorem lfilter_id (xs : List ℝ) : lfilter [1] [1] [] xs = (xs, []) := by
  induction xs with
  | nil => rfl
  | cons x xs ih =>
    simp only [lfilter, lfilterStep_id, ih]

/-- One biquad step on a zero sample. -/
theorem lfilterStep_biquad_zero_sample (b0 b2 a2 z0 z1 : ℝ) :
    lfilterStep [b0, 0, b2] [1, 0, a2] [z0, z1] 0 = (z0, [z1, -a2 * z0]) := by
  rw [lfilterStep]
  norm_num [List.range_succ]

/-- A biquad with zero state maps an all-zero chunk to an all-zero chunk
and ends with zero state. -/
theorem lfilter_biquad_zero (b0 b2 a2 : ℝ) (m : ℕ) :
    lfilter [b0, 0, b2] [1, 0, a2] [0, 0] (List.replicate m 0) =
      (List.replicate m 0, [0, 0]) := by
  induction m with
  | zero => rfl
  | succ m ih =>
    rw [List.replicate_succ]
    have hstep := lfilterStep_biquad_zero_sample b0 b2 a2 0 0
    rw [mul_zero] at hstep
    simp only [lfilter, hstep, ih]

/-- Feeding `2k` zero samples to a biquad with `a1 = 0` scales both state
slots by `(-a2)^k`. -/
theorem lfilter_biquad_zero_input (b0 b2 a2 z0 z1 : ℝ) (k : ℕ) :
    (lfilter [b0, 0, b2] [1, 0, a2] [z0, z1] (List.replicate (2 * k) 0)).2 =
      [(-a2) ^ k * z0, (-a2) ^ k * z1] := by
  induction k generalizing z0 z1 with
  | zero => norm_num [lfilter]
  | succ k ih =>
    rw [show 2 * (k + 1) = (2 * k).succ.succ by omega]
    simp only [List.replicate_succ, lfilter, lfilterStep_biquad_zero_sample]
    rw [ih (-a2 * z0) (-a2 * z1)]
    have e1 : (-a2) ^ k * (-a2 * z0) = (-a2) ^ (k + 1) * z0 := by ring
    have e2 : (-a2) ^ k * (-a2 * z1) = (-a2) ^ (k + 1) * z1 := by ring
    rw [e1, e2]

/-- C6 (amended): a callback on which pop detection fires emits the
all-zero chunk and leaves the pop counter at `POP_SILENCE_FRAMES - 1`
(the armed counter is decremented in the same callback), and a callback
with a positive counter and no new detection emits the all-zero chunk and
decrements the counter; hence a pop-triggering chunk is itself silenced
and is followed by exactly `POP_SILENCE_FRAMES - 1` further silenced
chunks when no re-detection occurs. -/
theorem pop_guard_step (st : AudioProcessor) (chunk : List ℤ) (vad : Bool) :
    (st.popFires chunk vad = true →
      (st.audio_callback chunk vad).2 = List.replicate chunk.length 0 ∧
      (st.audio_callback chunk vad).1.pop_noise_silence_counter = POP_SILENCE_FRAMES - 1) ∧
    (st.popFires chunk vad = false → 0 < st.pop_noise_silence_counter →
      (st.audio_callback chunk vad).2 = List.replicate chunk.length 0 ∧
      (st.audio_callback chunk vad).1.pop_noise_silence_counter =
        st.pop_noise_silence_counter - 1) := by
  constructor
  · intro hf
    rw [AudioProcessor.audio_callback]
    simp only [hf, if_true]
    rw [if_pos (by rw [POP_SILENCE_FRAMES]; omega)]
    exact ⟨rfl, rfl⟩
  · intro hf hc
    rw [AudioProcessor.audio_callback]
    simp only [hf, Bool.false_eq_true, if_false]
    rw [if_pos hc]
    exact ⟨rfl, rfl⟩

theorem rfftBin_const_half_bin_zero :
    rfftBin (List.replicate 4096 ((1 : ℝ) / 2)) 0 = 2048 := by
  rw [rfftBin, List.length_replicate]
  have hterm : ∀ n ∈ Finset.range 4096,
      (((List.replicate 4096 ((1 : ℝ) / 2)).getD n 0 : ℂ) *
        Complex.exp (-(2 * Real.pi * Complex.I * ((0 : ℕ) : ℂ) * (n : ℂ)) / (4096 : ℕ))) =
      (1 / 2 : ℂ) := by
    intro n hn
    rw [List.getD_eq_getElem _ _
        (by rw [List.length_replicate]; exact Finset.mem_range.mp hn),
      List.getElem_replicate]
    norm_num
  rw [Finset.sum_congr rfl hterm, Finset.sum_const, Finset.card_range]
  norm_num

/-- On the constant half-scale chunk the pop heuristic fires: the DC bin
magnitude alone is 2048 > 1000. -/
theorem is_pop_noise_const_half :
    is_pop_noise (fftMagnitude (List.replicate 4096 ((1 : ℝ) / 2))) = true := by
  have hmem : Complex.abs (rfftBin (List.replicate 4096 ((1 : ℝ) / 2)) 0) ∈
      fftMagnitude (List.replicate 4096 ((1 : ℝ) / 2)) := by
    rw [fftMagnitude, rfft]
    refine List.mem_map.mpr ⟨_, List.mem_map.mpr ⟨0, ?_, rfl⟩, rfl⟩
    rw [List.length_replicate]
    exact List.mem_range.mpr (by norm_num)
  have habs : Complex.abs (rfftBin (List.replicate 4096 ((1 : ℝ) / 2)) 0) = 2048 := by
    rw [rfftBin_const_half_bin_zero]
    norm_num [Complex.abs_ofNat]
  have hge : (2048 : ℝ) ≤ (fftMagnitude (List.replicate 4096 ((1 : ℝ) / 2))).sum := by
    rw [← habs]
    exact List.single_le_sum (fun x hx => by
      rw [fftMagnitude] at hx
      obtain ⟨z, -, rfl⟩ := List.mem_map.mp hx
      exact Complex.abs.nonneg z) _ hmem
  rw [is_pop_noise, if_neg (by linarith)]
  simp only [decide_eq_true_eq]
  linarith

theorem i16ToFloat_16384 : i16ToFloat 16384 = 1 / 2 := by
  rw [i16ToFloat]
  norm_num

theorem get_rms_const_half : get_rms (List.replicate 4096 ((1 : ℝ) / 2)) = 1 / 2 := by
  rw [get_rms, if_neg (fun h => by rw [List.replicate_eq_nil_iff] at h; norm_num at h)]
  rw [show (List.replicate 4096 ((1 : ℝ) / 2)).map (fun v => v ^ 2) =
    List.replicate 4096 ((1 : ℝ) / 4) by rw [List.map_replicate]; norm_num]
  rw [listMean, List.sum_replicate, List.length_replicate, nsmul_eq_mul]
  rw [show ((4096 : ℕ) : ℝ) * ((1 : ℝ) / 4) / ((4096 : ℕ) : ℝ) = (1 / 2) ^ 2 by
    push_cast; ring]
  exact Real.sqrt_sq (by norm_num)

/-- Witness for `pop_guard_step`: a fresh orchestrator with the identity
bandpass fed a constant half-scale chunk (pop fires: RMS 1/2 > 0.05,
spectral sum 2048 > 1000) emits silence and leaves the counter at 9; the
same orchestrator with counter 1 fed an all-zero chunk (no detection)
emits silence and decrements the counter to 0. -/
theorem pop_guard_step_witness :
    (((AudioProcessor.init 6000 [1] [1] 4096 1 10).audio_callback
        (List.replicate 4096 16384) true).2 =
          List.replicate (List.replicate 4096 (16384 : ℤ)).length 0 ∧
      ((AudioProcessor.init 6000 [1] [1] 4096 1 10).audio_callback
        (List.replicate 4096 16384) true).1.pop_noise_silence_counter =
          POP_SILENCE_FRAMES - 1) ∧
    (({ AudioProcessor.init 6000 [1] [1] 4096 1 10 with
          pop_noise_silence_counter := 1 }.audio_callback
        (List.replicate 4096 0) false).2 =
          List.replicate (List.replicate 4096 (0 : ℤ)).length 0 ∧
      ({ AudioProcessor.init 6000 [1] [1] 4096 1 10 with
          pop_noise_silence_counter := 1 }.audio_callback
        (List.replicate 4096 0) false).1.pop_noise_silence_counter = 1 - 1) := by
  have hfloat : AudioProcessor.floatChunk (List.replicate 4096 16384) =
      List.replicate 4096 ((1 : ℝ) / 2) := by
    rw [AudioProcessor.floatChunk, List.map_replicate, i16ToFloat_16384]
  have hfires : (AudioProcessor.init 6000 [1] [1] 4096 1 10).popFires
      (List.replicate 4096 16384) true = true := by
    rw [AudioProcessor.popFires, hfloat, is_pop_noise_const_half, Bool.true_and]
    have hno : (AudioProcessor.init 6000 [1] [1] 4096 1 10).noiseOut
        (List.replicate 4096 16384) true =
        ((AudioProcessor.init 6000 [1] [1] 4096 1 10).noise,
          List.replicate 4096 ((1 : ℝ) / 2)) := by
      rw [AudioProcessor.noiseOut, hfloat]
      rw [show (AudioProcessor.init 6000 [1] [1] 4096 1 10).bp_b = [1] from rfl,
        show (AudioProcessor.init 6000 [1] [1] 4096 1 10).bp_a = [1] from rfl,
        show (AudioProcessor.init 6000 [1] [1] 4096 1 10).bp_zi = [] from rfl]
      rw [lfilter_id]
      rw [NoiseReduction.process]
      rw [if_neg (fun h => by
        have h1 := h.1
        rw [Bool.or_true] at h1
        exact absurd h1 (by simp))]
      rw [if_neg (fun h => by
        rw [show (AudioProcessor.init 6000 [1] [1] 4096 1 10).noise.learning_frames =
          10 from rfl] at h
        rw [show (AudioProcessor.init 6000 [1] [1] 4096 1 10).noise.frames_learned =
          0 from rfl] at h
        omega)]
    rw [hno]
    simp only [get_rms_const_half, MAX_VOLUME_RMS]
    norm_num
  have hnofires : ({ AudioProcessor.init 6000 [1] [1] 4096 1 10 with
      pop_noise_silence_counter := 1 } : AudioProcessor).popFires
      (List.replicate 4096 0) false = false := by
    rw [AudioProcessor.popFires, floatChunk_zero, is_pop_noise_zero_chunk, Bool.false_and]
  constructor
  · exact (pop_guard_step _ _ _).1 hfires
  · exact (pop_guard_step _ _ _).2 hnofires (by norm_num)

/-! ### Evaluating the 1000-2000 Hz order-1 bandpass at 6000 Hz

Normalized cutoffs 1/3 and 2/3; pre-warped edges `4·tan(π/6) = 4/√3` and
`4·tan(π/3) = 4√3` give the biquad `b = [(√3-1)/2, 0, -(√3-1)/2]`,
`a = [1, 0, 2-√3]`. -/

theorem sqrt3_inv_eq : 1 / Real.sqrt 3 = Real.sqrt 3 / 3 := by
  have h2 : Real.sqrt 3 ^ 2 = 3 := Real.sq_sqrt (by norm_num)
  have hne : Real.sqrt 3 ≠ 0 := ne_of_gt (Real.sqrt_pos.mpr (by norm_num))
  rw [div_eq_div_iff hne (by norm_num)]
  linear_combination (-1 : ℝ) * h2

theorem butter1BandpassB_eval :
    butter1BandpassB (1 / 3) (2 / 3) =
      [(Real.sqrt 3 - 1) / 2, 0, -((Real.sqrt 3 - 1) / 2)] := by
  have h2 : Real.sqrt 3 ^ 2 = 3 := Real.sq_sqrt (by norm_num)
  have h0 : (0 : ℝ) < Real.sqrt 3 := Real.sqrt_pos.mpr (by norm_num)
  have htl : Real.tan (Real.pi * (1 / 3) / 2) = 1 / Real.sqrt 3 := by
    rw [show Real.pi * (1 / 3) / 2 = Real.pi / 6 by ring, Real.tan_pi_div_six]
  have hth : Real.tan (Real.pi * (2 / 3) / 2) = Real.sqrt 3 := by
    rw [show Real.pi * (2 / 3) / 2 = Real.pi / 3 by ring, Real.tan_pi_div_three]
  rw [butter1BandpassB, htl, hth, sqrt3_inv_eq]
  have hden : (16 : ℝ) + 4 * (4 * Real.sqrt 3 - 4 * (Real.sqrt 3 / 3)) +
      4 * (Real.sqrt 3 / 3) * (4 * Real.sqrt 3) = 32 + 32 / 3 * Real.sqrt 3 := by
    linear_combination (16 / 3 : ℝ) * h2
  rw [hden]
  have e1 : 4 * (4 * Real.sqrt 3 - 4 * (Real.sqrt 3 / 3)) /
      (32 + 32 / 3 * Real.sqrt 3) = (Real.sqrt 3 - 1) / 2 := by
    rw [div_eq_div_iff (by positivity) (by norm_num)]
    linear_combination (-(32 / 3) : ℝ) * h2
  have e3 : -(4 * (4 * Real.sqrt 3 - 4 * (Real.sqrt 3 / 3))) /
      (32 + 32 / 3 * Real.sqrt 3) = -((Real.sqrt 3 - 1) / 2) := by
    rw [neg_div, e1]
  rw [e1, e3]

theorem butter1BandpassA_eval :
    butter1BandpassA (1 / 3) (2 / 3) = [1, 0, 2 - Real.sqrt 3] := by
  have h2 : Real.sqrt 3 ^ 2 = 3 := Real.sq_sqrt (by norm_num)
  have h0 : (0 : ℝ) < Real.sqrt 3 := Real.sqrt_pos.mpr (by norm_num)
  have htl : Real.tan (Real.pi * (1 / 3) / 2) = 1 / Real.sqrt 3 := by
    rw [show Real.pi * (1 / 3) / 2 = Real.pi / 6 by ring, Real.tan_pi_div_six]
  have hth : Real.tan (Real.pi * (2 / 3) / 2) = Real.sqrt 3 := by
    rw [show Real.pi * (2 / 3) / 2 = Real.pi / 3 by ring, Real.tan_pi_div_three]
  rw [butter1BandpassA, htl, hth, sqrt3_inv_eq]
  have hden : (16 : ℝ) + 4 * (4 * Real.sqrt 3 - 4 * (Real.sqrt 3 / 3)) +
      4 * (Real.sqrt 3 / 3) * (4 * Real.sqrt 3) = 32 + 32 / 3 * Real.sqrt 3 := by
    linear_combination (16 / 3 : ℝ) * h2
  rw [hden]
  have e1 : 2 * (4 * (Real.sqrt 3 / 3) * (4 * Real.sqrt 3) - 16) /
      (32 + 32 / 3 * Real.sqrt 3) = 0 := by
    rw [div_eq_zero_iff]
    left
    linear_combination (32 / 3 : ℝ) * h2
  have e2 : (16 - 4 * (4 * Real.sqrt 3 - 4 * (Real.sqrt 3 / 3)) +
        4 * (Real.sqrt 3 / 3) * (4 * Real.sqrt 3)) /
      (32 + 32 / 3 * Real.sqrt 3) = 2 - Real.sqrt 3 := by
    rw [div_eq_iff (by positivity)]
    linear_combination (16 : ℝ) * h2
  rw [e1, e2]

/-- The numerator half-gain of the 1000-2000 Hz order-1 bandpass at
6000 Hz: `b = [c6b0, 0, -c6b0]`. -/
def c6b0 : ℝ := (Real.sqrt 3 - 1) / 2

/-- The trailing denominator coefficient of the same design:
`a = [1, 0, c6a2]`. -/
def c6a2 : ℝ := 2 - Real.sqrt 3

/-! ### The biquad recurrence underlying `lfilter` with `b = [b0, 0, b2]`,
`a = [1, 0, a2]` from zero initial conditions -/

/-- The output recurrence: `y[n] = b0·x[n] + b2·x[n-2] - a2·y[n-2]` with
zero history. -/
def biquadY (b0 b2 a2 : ℝ) (x : ℕ → ℝ) : ℕ → ℝ
  | 0 => b0 * x 0
  | 1 => b0 * x 1
  | n + 2 => b0 * x (n + 2) + b2 * x n - a2 * biquadY b0 b2 a2 x n

/-- The direct-form-II-transposed state after `m` samples of `x`. -/
def biquadState (b0 b2 a2 : ℝ) (x : ℕ → ℝ) (m : ℕ) : List ℝ :=
  [if 2 ≤ m then b2 * x (m - 2) - a2 * biquadY b0 b2 a2 x (m - 2) else 0,
   if 1 ≤ m then b2 * x (m - 1) - a2 * biquadY b0 b2 a2 x (m - 1) else 0]

theorem biquadState_zero (b0 b2 a2 : ℝ) (x : ℕ → ℝ) :
    biquadState b0 b2 a2 x 0 = [0, 0] := by
  rw [biquadState, if_neg (by omega), if_neg (by omega)]

theorem lfilterStep_biquad_gen (b0 b2 a2 z0 z1 x : ℝ) :
    lfilterStep [b0, 0, b2] [1, 0, a2] [z0, z1] x =
      (b0 * x + z0, [z1, b2 * x - a2 * (b0 * x + z0)]) := by
  rw [lfilterStep]
  norm_num [List.range_succ]

theorem lfilterStep_biquad (b0 b2 a2 : ℝ) (x : ℕ → ℝ) (m : ℕ) :
    lfilterStep [b0, 0, b2] [1, 0, a2] (biquadState b0 b2 a2 x m) (x m) =
      (biquadY b0 b2 a2 x m, biquadState b0 b2 a2 x (m + 1)) := by
  match m with
  | 0 =>
    rw [biquadState_zero, lfilterStep_biquad_gen]
    rw [show biquadY b0 b2 a2 x 0 = b0 * x 0 from rfl]
    rw [biquadState, if_neg (by omega), if_pos (by omega)]
    norm_num
    exact Or.inl rfl
  | 1 =>
    rw [show biquadState b0 b2 a2 x 1 =
        [0, b2 * x 0 - a2 * biquadY b0 b2 a2 x 0] from by
      rw [biquadState, if_neg (by omega), if_pos (by omega)]]
    rw [lfilterStep_biquad_gen]
    rw [show biquadY b0 b2 a2 x 1 = b0 * x 1 from rfl]
    rw [biquadState, if_pos (by omega), if_pos (by omega)]
    norm_num
    exact Or.inl rfl
  | t + 2 =>
    rw [show biquadState b0 b2 a2 x (t + 2) =
        [b2 * x t - a2 * biquadY b0 b2 a2 x t,
         b2 * x (t + 1) - a2 * biquadY b0 b2 a2 x (t + 1)] from by
      rw [biquadState, if_pos (by omega), if_pos (by omega)]
      simp only [Nat.add_sub_cancel, show t + 2 - 1 = t + 1 by omega]]
    rw [lfilterStep_biquad_gen]
    have hY : biquadY b0 b2 a2 x (t + 2) =
        b0 * x (t + 2) + (b2 * x t - a2 * biquadY b0 b2 a2 x t) := by
      rw [biquadY]
      ring
    rw [biquadState, if_pos (by omega), if_pos (by omega)]
    simp only [show t + 2 + 1 - 2 = t + 1 by omega,
      show t + 2 + 1 - 1 = t + 2 by omega]
    rw [hY]

/-- Running `lfilter` over a chunk that matches the stream `x` from
position `m`, starting in the recurrence state, produces the recurrence
outputs and the advanced recurrence state. -/
theorem lfilter_biquad_run (b0 b2 a2 : ℝ) (x : ℕ → ℝ) :
    ∀ (rest : List ℝ) (m : ℕ),
      (∀ i, i < rest.length → rest.getD i 0 = x (m + i)) →
      lfilter [b0, 0, b2] [1, 0, a2] (biquadState b0 b2 a2 x m) rest =
        ((List.range rest.length).map (fun i => biquadY b0 b2 a2 x (m + i)),
          biquadState b0 b2 a2 x (m + rest.length)) := by
  intro rest
  induction rest with
  | nil =>
    intro m _
    rw [lfilter]
    rfl
  | cons r rest ih =>
    intro m hmatch
    have hr : r = x m := by
      have := hmatch 0 (by simp)
      simpa using this
    rw [lfilter, hr, lfilterStep_biquad]
    have hrest : ∀ i, i < rest.length → rest.getD i 0 = x (m + 1 + i) := by
      intro i hi
      have := hmatch (i + 1) (by simp; omega)
      rw [List.getD_cons_succ] at this
      rw [this]
      congr 1
      omega
    rw [ih (m + 1) hrest]
    simp only [List.length_cons, Prod.mk.injEq]
    constructor
    · rw [List.range_succ_eq_map, List.map_cons, List.map_map, Nat.add_zero]
      refine congrArg (List.cons (biquadY b0 b2 a2 x m)) ?_
      apply List.map_congr_left
      intro i _
      simp only [Function.comp_apply]
      congr 1
      omega
    · congr 1
      omega

/-- The orchestrator state reached in the pop-guard scenario: the 6000 Hz
configuration with the 1000-2000 Hz order-1 bandpass, unit gain, chunk
size 4096 and the untouched fresh noise learner. -/
def c6AP (count : ℕ) (started : Bool) (counter : ℕ) (zi : List ℝ)
    (q : List (List ℝ)) : AudioProcessor :=
  { samplerate := 6000
    gain := 1
    chunk_size := 4096
    speech_frame_count := count
    speech_started := started
    noise := NoiseReduction.init 6000 4096 10
    pop_noise_silence_counter := counter
    bp_b := [c6b0, 0, -c6b0]
    bp_a := [1, 0, c6a2]
    bp_zi := zi
    audio_queue := q }

theorem mk1_c6_eval :
    AudioProcessor.mk1 6000 1000 2000 4096 1 10 = c6AP 0 false 0 [0, 0] [] := by
  have hcuts : BandpassFilter.normalCutoffs ((6000 : ℕ) : ℝ) 1000 2000 = (1 / 3, 2 / 3) := by
    rw [BandpassFilter.normalCutoffs]
    rw [show (1000 : ℝ) / (1 / 2 * ((6000 : ℕ) : ℝ)) = 1 / 3 by push_cast; norm_num]
    rw [show (2000 : ℝ) / (1 / 2 * ((6000 : ℕ) : ℝ)) = 2 / 3 by push_cast; norm_num]
    rw [max_eq_left (by norm_num), min_eq_left (by norm_num)]
  rw [AudioProcessor.mk1, hcuts]
  rw [AudioProcessor.init, c6AP, c6b0, c6a2]
  rw [butter1BandpassB_eval, butter1BandpassA_eval]
  rw [show lfiltic [(Real.sqrt 3 - 1) / 2, 0, -((Real.sqrt 3 - 1) / 2)]
      [1, 0, 2 - Real.sqrt 3] = [0, 0] from rfl]

/-! ### The pop-guard counterexample scenario

Sixteen callbacks on the 6000 Hz configuration: five all-zero chunks the
VAD calls speech (opening the gate at the fifth), a half-scale period-4
square chunk on which pop detection fires, nine further all-zero speech
chunks, and a single-impulse chunk.  The guard silences the trigger chunk
and the nine following chunks; the impulse chunk — the tenth after the
trigger — is emitted through the speech branch with a nonzero first
sample. -/

/-- The all-zero int16 chunk. -/
def zChunk : List ℤ := List.replicate 4096 0

/-- A half-amplitude square wave of period 4: two samples at `16384`, two
at `-16384`. -/
def sqChunkI : List ℤ :=
  (List.range 4096).map fun n => if n % 4 < 2 then 16384 else -16384

/-- A single impulse of amplitude 1024 followed by silence. -/
def impChunkI : List ℤ := 1024 :: List.replicate 4095 0

/-- The float samples of the square chunk, as a function of the index. -/
def sqSig (n : ℕ) : ℝ := if n % 4 < 2 then 1 / 2 else -(1 / 2)

theorem floatChunk_sq :
    AudioProcessor.floatChunk sqChunkI = (List.range 4096).map fun n => sqSig n := by
  rw [AudioProcessor.floatChunk, sqChunkI, List.map_map]
  apply List.map_congr_left
  intro n _
  simp only [Function.comp_apply, sqSig, i16ToFloat]
  split_ifs <;> norm_num

theorem floatChunk_sq_length : (AudioProcessor.floatChunk sqChunkI).length = 4096 := by
  rw [floatChunk_sq, List.length_map, List.length_range]

theorem floatChunk_sq_getD (i : ℕ) (hi : i < 4096) :
    (AudioProcessor.floatChunk sqChunkI).getD i 0 = sqSig i := by
  rw [floatChunk_sq]
  rw [List.getD_eq_getElem _ _ (by rw [List.length_map, List.length_range]; exact hi)]
  rw [List.getElem_map, List.getElem_range]

theorem sqSig_add_two (n : ℕ) : sqSig (n + 2) = -sqSig n := by
  have h : n % 4 = 0 ∨ n % 4 = 1 ∨ n % 4 = 2 ∨ n % 4 = 3 := by omega
  rcases h with h | h | h | h
  · rw [sqSig, sqSig, if_neg (by omega), if_pos (by omega)]
  · rw [sqSig, sqSig, if_neg (by omega), if_pos (by omega)]
  · rw [sqSig, sqSig, if_pos (by omega), if_neg (by omega)]
    norm_num
  · rw [sqSig, sqSig, if_pos (by omega), if_neg (by omega)]
    norm_num

theorem sqSig_cases (n : ℕ) : sqSig n = 1 / 2 ∨ sqSig n = -(1 / 2) := by
  rw [sqSig]
  split_ifs
  · exact Or.inl rfl
  · exact Or.inr rfl

theorem sqSig_abs (n : ℕ) : |sqSig n| = 1 / 2 := by
  rcases sqSig_cases n with h | h <;> rw [h] <;> norm_num

/-! Numeric bounds on the bandpass coefficients. -/

theorem sqrt3_ge : 173 / 100 ≤ Real.sqrt 3 := by
  rw [show (173 / 100 : ℝ) = Real.sqrt ((173 / 100) ^ 2) from
    (Real.sqrt_sq (by norm_num)).symm]
  exact Real.sqrt_le_sqrt (by norm_num)

theorem sqrt3_le : Real.sqrt 3 ≤ 174 / 100 := by
  rw [show (174 / 100 : ℝ) = Real.sqrt ((174 / 100) ^ 2) from
    (Real.sqrt_sq (by norm_num)).symm]
  exact Real.sqrt_le_sqrt (by norm_num)

theorem c6a2_nonneg : 0 ≤ c6a2 := by
  rw [c6a2]
  linarith [sqrt3_le]

theorem c6a2_le : c6a2 ≤ 27 / 100 := by
  rw [c6a2]
  linarith [sqrt3_ge]

theorem c6a2_le_one : c6a2 ≤ 1 := le_trans c6a2_le (by norm_num)

theorem c6b0_nonneg : 0 ≤ c6b0 := by
  rw [c6b0]
  linarith [sqrt3_ge]

theorem c6b0_ge : 73 / 200 ≤ c6b0 := by
  rw [c6b0]
  linarith [sqrt3_ge]

theorem c6b0_le : c6b0 ≤ 37 / 100 := by
  rw [c6b0]
  linarith [sqrt3_le]

/-- Unit gain of the design at the center frequency: `2·b0 + a2 = 1`. -/
theorem c6_gain : 2 * c6b0 + c6a2 = 1 := by
  rw [c6b0, c6a2]
  ring

/-- Closed form of the bandpass response to the square chunk: the square
itself plus a geometrically decaying transient. -/
def c6Y (n : ℕ) : ℝ := sqSig n + (c6b0 - 1) / 2 * (-c6a2) ^ (n / 2)

theorem c6Y_eq (n : ℕ) : biquadY c6b0 (-c6b0) c6a2 sqSig n = c6Y n := by
  induction n using Nat.strong_induction_on with
  | _ n ih =>
    match n, ih with
    | 0, _ =>
      rw [show biquadY c6b0 (-c6b0) c6a2 sqSig 0 = c6b0 * sqSig 0 from rfl, c6Y,
        show sqSig 0 = 1 / 2 from by rw [sqSig]; norm_num,
        show (0 : ℕ) / 2 = 0 from rfl, pow_zero]
      ring
    | 1, _ =>
      rw [show biquadY c6b0 (-c6b0) c6a2 sqSig 1 = c6b0 * sqSig 1 from rfl, c6Y,
        show sqSig 1 = 1 / 2 from by rw [sqSig]; norm_num,
        show (1 : ℕ) / 2 = 0 from rfl, pow_zero]
      ring
    | t + 2, ih =>
      rw [show biquadY c6b0 (-c6b0) c6a2 sqSig (t + 2) =
          c6b0 * sqSig (t + 2) + (-c6b0) * sqSig t -
            c6a2 * biquadY c6b0 (-c6b0) c6a2 sqSig t from rfl,
        ih t (by omega), c6Y, c6Y, sqSig_add_two,
        show (t + 2) / 2 = t / 2 + 1 by omega, pow_succ]
      linear_combination (-sqSig t) * c6_gain

/-- The transient factor: for any exponent the decay power is at most 1. -/
theorem c6_transient_abs (k : ℕ) :
    |(c6b0 - 1) / 2 * (-c6a2) ^ k| ≤ 32 / 100 * c6a2 ^ k := by
  rw [abs_mul, abs_pow, abs_neg, abs_of_nonneg c6a2_nonneg]
  have h1 : |(c6b0 - 1) / 2| ≤ 32 / 100 := by
    rw [abs_of_nonpos (by linarith [c6b0_le])]
    linarith [c6b0_ge]
  exact mul_le_mul_of_nonneg_right h1 (pow_nonneg c6a2_nonneg k)

theorem c6a2_pow_le_one (k : ℕ) : c6a2 ^ k ≤ 1 :=
  pow_le_one₀ c6a2_nonneg c6a2_le_one

theorem c6Y_abs_le (n : ℕ) : |c6Y n| ≤ 1 := by
  have h1 : |c6Y n| ≤ |sqSig n| + |(c6b0 - 1) / 2 * (-c6a2) ^ (n / 2)| := by
    rw [c6Y]
    exact abs_add _ _
  have h2 := c6_transient_abs (n / 2)
  have h3 := c6a2_pow_le_one (n / 2)
  rw [sqSig_abs] at h1
  nlinarith

theorem c6Y_abs_ge (n : ℕ) (h : 2 ≤ n) : 41 / 100 ≤ |c6Y n| := by
  have hE : |(c6b0 - 1) / 2 * (-c6a2) ^ (n / 2)| ≤ 9 / 100 := by
    have h1 := c6_transient_abs (n / 2)
    have h2 : c6a2 ^ (n / 2) ≤ c6a2 := by
      calc c6a2 ^ (n / 2) ≤ c6a2 ^ 1 :=
            pow_le_pow_of_le_one c6a2_nonneg c6a2_le_one (by omega)
      _ = c6a2 := pow_one _
    have h3 := c6a2_le
    have h4 : (0 : ℝ) ≤ c6a2 ^ (n / 2) := pow_nonneg c6a2_nonneg _
    nlinarith
  have htri : |sqSig n| ≤ |c6Y n| + |(c6b0 - 1) / 2 * (-c6a2) ^ (n / 2)| := by
    have hs : sqSig n = c6Y n - (c6b0 - 1) / 2 * (-c6a2) ^ (n / 2) := by
      rw [c6Y]
      ring
    calc |sqSig n| = |c6Y n + -((c6b0 - 1) / 2 * (-c6a2) ^ (n / 2))| := by
          rw [hs, sub_eq_add_neg]
    _ ≤ |c6Y n| + |(-((c6b0 - 1) / 2 * (-c6a2) ^ (n / 2)))| := abs_add _ _
    _ = |c6Y n| + |(c6b0 - 1) / 2 * (-c6a2) ^ (n / 2)| := by rw [abs_neg]
  rw [sqSig_abs] at htri
  linarith

/-- The bandpass-filtered square chunk. -/
def sqFiltered : List ℝ := (List.range 4096).map fun i => biquadY c6b0 (-c6b0) c6a2 sqSig i

theorem sum_map_range (f : ℕ → ℝ) (n : ℕ) :
    ((List.range n).map f).sum = ∑ i ∈ Finset.range n, f i := by
  induction n with
  | zero => rfl
  | succ n ih =>
    rw [List.range_succ, List.map_append, List.sum_append, ih, Finset.sum_range_succ]
    simp

/-- The filtered square chunk keeps RMS above the pop threshold: each
sample from index 2 on has magnitude at least `0.41`. -/
theorem sqFiltered_rms_gt : MAX_VOLUME_RMS < get_rms sqFiltered := by
  have hmap : sqFiltered = (List.range 4096).map fun i => c6Y i := by
    rw [sqFiltered]
    exact List.map_congr_left fun i _ => c6Y_eq i
  have hsumsq : (4094 : ℝ) * (41 / 100) ^ 2 ≤ ∑ i ∈ Finset.range 4096, c6Y i ^ 2 := by
    have hsub : Finset.Ico 2 4096 ⊆ Finset.range 4096 := by
      rw [Finset.range_eq_Ico]
      exact Finset.Ico_subset_Ico (by omega) le_rfl
    have h1 : ∑ i ∈ Finset.Ico 2 4096, c6Y i ^ 2 ≤ ∑ i ∈ Finset.range 4096, c6Y i ^ 2 :=
      Finset.sum_le_sum_of_subset_of_nonneg hsub fun i _ _ => sq_nonneg _
    have hterm : ∀ i ∈ Finset.Ico 2 4096, (41 / 100 : ℝ) ^ 2 ≤ c6Y i ^ 2 := by
      intro i hi
      have h41 := c6Y_abs_ge i (Finset.mem_Ico.mp hi).1
      calc (41 / 100 : ℝ) ^ 2 ≤ |c6Y i| ^ 2 := by
            apply pow_le_pow_left (by norm_num) h41
      _ = c6Y i ^ 2 := sq_abs _
    have h2 : (4094 : ℝ) * (41 / 100) ^ 2 ≤ ∑ i ∈ Finset.Ico 2 4096, c6Y i ^ 2 := by
      calc (4094 : ℝ) * (41 / 100) ^ 2 =
            (Finset.Ico 2 4096).card • ((41 / 100 : ℝ) ^ 2) := by
            rw [Nat.card_Ico, nsmul_eq_mul]
            norm_num
      _ ≤ ∑ i ∈ Finset.Ico 2 4096, c6Y i ^ 2 := Finset.card_nsmul_le_sum _ _ _ hterm
    linarith
  have hne : sqFiltered ≠ [] := by
    rw [hmap]
    intro h
    rw [List.map_eq_nil, List.range_eq_nil] at h
    norm_num at h
  rw [get_rms, if_neg hne, hmap, listMean, List.map_map]
  rw [show ((fun v : ℝ => v ^ 2) ∘ fun i => c6Y i) = fun i => c6Y i ^ 2 from rfl]
  rw [sum_map_range, List.length_map, List.length_range]
  have hm : ((1 : ℝ) / 20) ^ 2 < (∑ i ∈ Finset.range 4096, c6Y i ^ 2) / ((4096 : ℕ) : ℝ) := by
    rw [lt_div_iff (by positivity)]
    push_cast
    nlinarith
  have hs := Real.sqrt_lt_sqrt (by positivity) hm
  rw [Real.sqrt_sq (by norm_num)] at hs
  rw [MAX_VOLUME_RMS]
  exact hs

/-! The raw square chunk has a large spectral line at bin 1024 (a quarter
of the sampling rate): the pop heuristic fires on it. -/

theorem neg_I_pow_four : (-Complex.I) ^ 4 = 1 := by
  rw [Even.neg_pow (by decide), show (4 : ℕ) = 2 * 2 from rfl, pow_mul, Complex.I_sq]
  norm_num

theorem sq_dft_block (k : ℕ) :
    ∑ n ∈ Finset.range (4 * k), (sqSig n : ℂ) * (-Complex.I) ^ n =
      (k : ℂ) * (1 - Complex.I) := by
  induction k with
  | zero => simp
  | succ k ih =>
    rw [show 4 * (k + 1) = 4 * k + 1 + 1 + 1 + 1 by ring]
    rw [Finset.sum_range_succ, Finset.sum_range_succ, Finset.sum_range_succ,
      Finset.sum_range_succ, ih]
    have e0 : sqSig (4 * k) = 1 / 2 := by rw [sqSig, if_pos (by omega)]
    have e1 : sqSig (4 * k + 1) = 1 / 2 := by rw [sqSig, if_pos (by omega)]
    have e2 : sqSig (4 * k + 1 + 1) = -(1 / 2) := by rw [sqSig, if_neg (by omega)]
    have e3 : sqSig (4 * k + 1 + 1 + 1) = -(1 / 2) := by rw [sqSig, if_neg (by omega)]
    have p0 : (-Complex.I) ^ (4 * k) = 1 := by
      rw [pow_mul, neg_I_pow_four, one_pow]
    rw [e0, e1, e2, e3]
    simp only [pow_succ, p0, one_mul]
    push_cast
    linear_combination ((Complex.I - 1) / 2) * Complex.I_sq

theorem exp_neg_quarter_turn (n : ℕ) :
    Complex.exp (-(2 * (Real.pi : ℂ) * Complex.I * ((1024 : ℕ) : ℂ) * (n : ℂ)) /
        ((4096 : ℕ) : ℂ)) = (-Complex.I) ^ n := by
  rw [show -(2 * (Real.pi : ℂ) * Complex.I * ((1024 : ℕ) : ℂ) * (n : ℂ)) /
      ((4096 : ℕ) : ℂ) = (n : ℕ) * (((-(Real.pi / 2) : ℝ) : ℂ) * Complex.I) from by
    push_cast
    ring]
  rw [Complex.exp_nat_mul, Complex.exp_mul_I]
  rw [show ((-(Real.pi / 2) : ℝ) : ℂ) = -(((Real.pi / 2 : ℝ) : ℂ)) from by push_cast; ring]
  rw [Complex.cos_neg, Complex.sin_neg]
  rw [← Complex.ofReal_cos, ← Complex.ofReal_sin, Real.cos_pi_div_two, Real.sin_pi_div_two]
  push_cast
  ring

theorem rfftBin_sq_1024 :
    rfftBin (AudioProcessor.floatChunk sqChunkI) 1024 = 1024 * (1 - Complex.I) := by
  rw [rfftBin, floatChunk_sq_length]
  have hterm : ∀ n ∈ Finset.range 4096,
      ((AudioProcessor.floatChunk sqChunkI).getD n 0 : ℂ) *
        Complex.exp (-(2 * (Real.pi : ℂ) * Complex.I * ((1024 : ℕ) : ℂ) * ((n : ℕ) : ℂ)) /
          ((4096 : ℕ) : ℂ)) =
      (sqSig n : ℂ) * (-Complex.I) ^ n := by
    intro n hn
    rw [floatChunk_sq_getD n (Finset.mem_range.mp hn), exp_neg_quarter_turn]
  rw [Finset.sum_congr rfl hterm]
  rw [show (4096 : ℕ) = 4 * 1024 from rfl, sq_dft_block]
  norm_num

theorem rfftBin_sq_1024_abs :
    1443 ≤ Complex.abs (rfftBin (AudioProcessor.floatChunk sqChunkI) 1024) := by
  rw [rfftBin_sq_1024]
  have h2 : Complex.abs ((1024 : ℂ) * (1 - Complex.I)) ^ 2 = 2097152 := by
    rw [Complex.sq_abs, Complex.normSq_apply]
    simp only [Complex.mul_re, Complex.mul_im, Complex.sub_re, Complex.sub_im,
      Complex.one_re, Complex.one_im, Complex.I_re, Complex.I_im, Complex.re_ofNat,
      Complex.im_ofNat]
    norm_num
  nlinarith [AbsoluteValue.nonneg Complex.abs ((1024 : ℂ) * (1 - Complex.I)),
    sq_nonneg (Complex.abs ((1024 : ℂ) * (1 - Complex.I)) - 1443)]

theorem is_pop_noise_sq :
    is_pop_noise (fftMagnitude (AudioProcessor.floatChunk sqChunkI)) = true := by
  have hmem : Complex.abs (rfftBin (AudioProcessor.floatChunk sqChunkI) 1024) ∈
      fftMagnitude (AudioProcessor.floatChunk sqChunkI) := by
    rw [fftMagnitude, rfft]
    refine List.mem_map.mpr ⟨_, List.mem_map.mpr ⟨1024, ?_, rfl⟩, rfl⟩
    rw [floatChunk_sq_length]
    exact List.mem_range.mpr (by norm_num)
  have hge : (1443 : ℝ) ≤ (fftMagnitude (AudioProcessor.floatChunk sqChunkI)).sum := by
    refine le_trans rfftBin_sq_1024_abs ?_
    exact List.single_le_sum (fun x hx => by
      rw [fftMagnitude] at hx
      obtain ⟨z, -, rfl⟩ := List.mem_map.mp hx
      exact AbsoluteValue.nonneg Complex.abs z) _ hmem
  rw [is_pop_noise, if_neg (by linarith)]
  simp only [decide_eq_true_eq]
  linarith

/-! The impulse chunk has a flat spectrum of tiny total energy: the pop
heuristic does not fire on it. -/

theorem floatChunk_imp :
    AudioProcessor.floatChunk impChunkI = (1 / 32 : ℝ) :: List.replicate 4095 0 := by
  rw [AudioProcessor.floatChunk, impChunkI, List.map_cons, List.map_replicate]
  rw [show i16ToFloat 1024 = 1 / 32 from by rw [i16ToFloat]; norm_num,
    show i16ToFloat 0 = 0 from by rw [i16ToFloat]; norm_num]

theorem rfftBin_imp (k : ℕ) :
    rfftBin ((1 / 32 : ℝ) :: List.replicate 4095 0) k = (1 / 32 : ℝ) := by
  rw [rfftBin]
  rw [show ((1 / 32 : ℝ) :: List.replicate 4095 0).length = 4096 from by
    rw [List.length_cons, List.length_replicate]]
  rw [Finset.sum_eq_single 0]
  · rw [List.getD_cons_zero]
    rw [show -(2 * (Real.pi : ℂ) * Complex.I * ((k : ℕ) : ℂ) * (((0 : ℕ) : ℕ) : ℂ)) /
        ((4096 : ℕ) : ℂ) = 0 from by push_cast; ring]
    rw [Complex.exp_zero, mul_one]
  · intro n _ hne
    rcases Nat.exists_eq_succ_of_ne_zero hne with ⟨m, rfl⟩
    rw [List.getD_cons_succ, getD_replicate_zero]
    norm_num
  · intro h
    exact absurd (Finset.mem_range.mpr (by norm_num)) h

theorem fftMagnitude_imp_sum :
    (fftMagnitude (AudioProcessor.floatChunk impChunkI)).sum = 2049 * (1 / 32) := by
  rw [floatChunk_imp, fftMagnitude, rfft]
  rw [show ((1 / 32 : ℝ) :: List.replicate 4095 0).length / 2 + 1 = 2049 from by
    rw [List.length_cons, List.length_replicate]]
  rw [List.map_map]
  have hconst : (List.range 2049).map
      (Complex.abs ∘ rfftBin ((1 / 32 : ℝ) :: List.replicate 4095 0)) =
      List.replicate 2049 (1 / 32 : ℝ) := by
    refine List.eq_replicate.mpr ⟨by rw [List.length_map, List.length_range], ?_⟩
    intro b hb
    obtain ⟨k, -, rfl⟩ := List.mem_map.mp hb
    simp only [Function.comp_apply]
    rw [rfftBin_imp]
    rw [show ((1 / 32 : ℝ) : ℂ) = (1 : ℂ) / 32 from by push_cast; ring]
    rw [map_div₀, map_one, Complex.abs_ofNat]
  rw [hconst, List.sum_replicate, nsmul_eq_mul]
  norm_num

theorem is_pop_noise_imp :
    is_pop_noise (fftMagnitude (AudioProcessor.floatChunk impChunkI)) = false := by
  rw [is_pop_noise, fftMagnitude_imp_sum, if_neg (by norm_num)]
  simp only [decide_eq_false_iff_not]
  norm_num

/-! Stepping the sixteen callbacks of the scenario. -/

/-- While still learning, a speech-classified chunk passes through
`NoiseReduction.process` with the state untouched. -/
theorem noise_pass_speech (nr : NoiseReduction) (xs : List ℝ)
    (h : nr.frames_learned < nr.learning_frames) : nr.process xs true = (nr, xs) := by
  rw [NoiseReduction.process]
  rw [if_neg fun hc => absurd hc.1 (by simp)]
  rw [if_neg (by omega)]

theorem c6_noiseOut (c : ℕ) (started : Bool) (cnt : ℕ) (zi : List ℝ)
    (q : List (List ℝ)) (chunk : List ℤ) :
    (c6AP c started cnt zi q).noiseOut chunk true =
      (NoiseReduction.init 6000 4096 10,
        (lfilter [c6b0, 0, -c6b0] [1, 0, c6a2] zi (AudioProcessor.floatChunk chunk)).1) := by
  rw [AudioProcessor.noiseOut, Bool.or_true]
  exact noise_pass_speech _ _ (by
    rw [show (c6AP c started cnt zi q).noise = NoiseReduction.init 6000 4096 10 from rfl]
    norm_num [NoiseReduction.init])

/-- The filter state carried out of the square chunk. -/
def sqS0 : ℝ := (-c6b0) * sqSig 4094 - c6a2 * biquadY c6b0 (-c6b0) c6a2 sqSig 4094

/-- The second state slot carried out of the square chunk. -/
def sqS1 : ℝ := (-c6b0) * sqSig 4095 - c6a2 * biquadY c6b0 (-c6b0) c6a2 sqSig 4095

set_option maxRecDepth 20000 in
set_option maxHeartbeats 2000000 in
theorem c6_lfilter_sq :
    lfilter [c6b0, 0, -c6b0] [1, 0, c6a2] [0, 0] (AudioProcessor.floatChunk sqChunkI) =
      (sqFiltered, [sqS0, sqS1]) := by
  rw [show ([0, 0] : List ℝ) = biquadState c6b0 (-c6b0) c6a2 sqSig 0 from
    (biquadState_zero _ _ _ _).symm]
  rw [lfilter_biquad_run c6b0 (-c6b0) c6a2 sqSig (AudioProcessor.floatChunk sqChunkI) 0
    (fun i hi => by
      rw [Nat.zero_add]
      exact floatChunk_sq_getD i (by rw [floatChunk_sq_length] at hi; exact hi))]
  rw [floatChunk_sq_length, Nat.zero_add, Prod.mk.injEq]
  refine ⟨?_, ?_⟩
  · rw [sqFiltered]
    apply List.map_congr_left
    intro i _
    rw [Nat.zero_add]
  · rw [biquadState, if_pos (by omega), if_pos (by omega)]
    rw [show (4096 : ℕ) - 2 = 4094 from by norm_num,
      show (4096 : ℕ) - 1 = 4095 from by norm_num]
    rw [sqS0, sqS1]

set_option maxRecDepth 20000 in
set_option maxHeartbeats 2000000 in
/-- The trigger condition: pop detection fires on the square chunk from
the post-gate state, for any queue contents. -/
theorem c6_popFires_trigger (q : List (List ℝ)) :
    (c6AP 5 true 0 [0, 0] q).popFires sqChunkI true = true := by
  rw [AudioProcessor.popFires, is_pop_noise_sq, Bool.true_and]
  rw [c6_noiseOut, c6_lfilter_sq]
  simp only [decide_eq_true_eq]
  exact sqFiltered_rms_gt

theorem runCallbacks_nil (st : AudioProcessor) : st.runCallbacks [] = (st, []) := rfl

theorem runCallbacks_step (st st2 : AudioProcessor) (ch : List ℤ) (v : Bool)
    (out : List ℤ) (cs : List (List ℤ × Bool))
    (h : st.audio_callback ch v = (st2, out)) :
    st.runCallbacks ((ch, v) :: cs) =
      ((st2.runCallbacks cs).1, out :: (st2.runCallbacks cs).2) := by
  simp only [AudioProcessor.runCallbacks, h]

set_option maxRecDepth 20000 in
set_option maxHeartbeats 2000000 in
theorem c6_step_zero_idle (c cn : ℕ) (started started2 : Bool) (q : List (List ℝ))
    (hc : c + 1 = cn) (hs : (if 5 ≤ c + 1 then true else started) = started2) :
    (c6AP c started 0 [0, 0] q).audio_callback zChunk true =
      (c6AP cn started2 0 [0, 0] (q ++ [List.replicate 4096 0]),
        List.replicate 4096 0) := by
  have hfl : AudioProcessor.floatChunk zChunk = List.replicate 4096 0 := by
    rw [zChunk]
    exact floatChunk_zero 4096
  have hfires : (c6AP c started 0 [0, 0] q).popFires zChunk true = false := by
    rw [AudioProcessor.popFires, hfl, is_pop_noise_zero_chunk, Bool.false_and]
  have hno : (c6AP c started 0 [0, 0] q).noiseOut zChunk true =
      (NoiseReduction.init 6000 4096 10, List.replicate 4096 0) := by
    rw [c6_noiseOut, hfl, lfilter_biquad_zero]
  have hsp : (c6AP c started 0 [0, 0] q).speechUpdate true = (c + 1, started2) := by
    rw [AudioProcessor.speechUpdate, if_pos rfl]
    rw [show (c6AP c started 0 [0, 0] q).speech_frame_count = c from rfl,
      show (c6AP c started 0 [0, 0] q).speech_started = started from rfl]
    rw [show SPEECH_FRAME_THRESHOLD = 5 from rfl, hs]
  have hlf : lfilter (c6AP c started 0 [0, 0] q).bp_b (c6AP c started 0 [0, 0] q).bp_a
      (c6AP c started 0 [0, 0] q).bp_zi (AudioProcessor.floatChunk zChunk) =
      (List.replicate 4096 0, [0, 0]) := by
    rw [hfl]
    exact lfilter_biquad_zero c6b0 (-c6b0) c6a2 4096
  have hlen : zChunk.length = 4096 := by
    rw [zChunk, List.length_replicate]
  rw [AudioProcessor.audio_callback, hfires]
  rw [if_neg (show ¬(false = true) from by simp)]
  rw [hlf, hno, hsp]
  simp only [hlen, hc]
  rw [if_neg (by
    norm_num [show (c6AP c started 0 [0, 0] q).pop_noise_silence_counter = 0 from rfl])]
  cases started2 with
  | false =>
    rw [if_neg (by simp)]
    rfl
  | true =>
    rw [if_pos rfl]
    rw [show (c6AP c started 0 [0, 0] q).gain = 1 from rfl]
    rw [List.map_replicate]
    rw [show floatToI16 (0 * 1) = 0 from by
      rw [floatToI16, clip]
      norm_num
      rw [truncInt, if_pos le_rfl]
      norm_num]
    rfl

set_option maxRecDepth 20000 in
set_option maxHeartbeats 2000000 in
theorem c6_step_trigger (q : List (List ℝ)) :
    (c6AP 5 true 0 [0, 0] q).audio_callback sqChunkI true =
      (c6AP 6 true 9 [sqS0, sqS1] (q ++ [sqFiltered]), List.replicate 4096 0) := by
  have hsp : (c6AP 5 true 0 [0, 0] q).speechUpdate true = (6, true) := by
    rw [AudioProcessor.speechUpdate, if_pos rfl]
    rw [show (c6AP 5 true 0 [0, 0] q).speech_frame_count = 5 from rfl,
      show (c6AP 5 true 0 [0, 0] q).speech_started = true from rfl]
    rw [if_pos (by rw [show SPEECH_FRAME_THRESHOLD = 5 from rfl]; omega)]
  have hno : (c6AP 5 true 0 [0, 0] q).noiseOut sqChunkI true =
      (NoiseReduction.init 6000 4096 10, sqFiltered) := by
    rw [c6_noiseOut, c6_lfilter_sq]
  have hlf : lfilter (c6AP 5 true 0 [0, 0] q).bp_b (c6AP 5 true 0 [0, 0] q).bp_a
      (c6AP 5 true 0 [0, 0] q).bp_zi (AudioProcessor.floatChunk sqChunkI) =
      (sqFiltered, [sqS0, sqS1]) := c6_lfilter_sq
  have hlen : sqChunkI.length = 4096 := by
    rw [sqChunkI, List.length_map, List.length_range]
  rw [AudioProcessor.audio_callback, c6_popFires_trigger]
  rw [if_pos rfl]
  rw [hlf, hno, hsp]
  simp only [hlen]
  rw [if_pos (by rw [show POP_SILENCE_FRAMES = 10 from rfl]; omega)]
  rw [show POP_SILENCE_FRAMES = 10 from rfl]
  rfl

set_option maxRecDepth 20000 in
set_option maxHeartbeats 2000000 in
theorem c6_step_zero_count (c cn cnt cnt2 : ℕ) (s0 s1 : ℝ) (q : List (List ℝ))
    (hcnt : 0 < cnt) (hc : c + 1 = cn) (hcnt2 : cnt - 1 = cnt2) (h5 : 5 ≤ c + 1) :
    (c6AP c true cnt [s0, s1] q).audio_callback zChunk true =
      (c6AP cn true cnt2 [(-c6a2) ^ 2048 * s0, (-c6a2) ^ 2048 * s1]
        (q ++ [(lfilter [c6b0, 0, -c6b0] [1, 0, c6a2] [s0, s1]
          (List.replicate 4096 0)).1]),
        List.replicate 4096 0) := by
  have hfl : AudioProcessor.floatChunk zChunk = List.replicate 4096 0 := by
    rw [zChunk]
    exact floatChunk_zero 4096
  have hfires : (c6AP c true cnt [s0, s1] q).popFires zChunk true = false := by
    rw [AudioProcessor.popFires, hfl, is_pop_noise_zero_chunk, Bool.false_and]
  have hno : (c6AP c true cnt [s0, s1] q).noiseOut zChunk true =
      (NoiseReduction.init 6000 4096 10,
        (lfilter [c6b0, 0, -c6b0] [1, 0, c6a2] [s0, s1] (List.replicate 4096 0)).1) := by
    rw [c6_noiseOut, hfl]
  have hsp : (c6AP c true cnt [s0, s1] q).speechUpdate true = (c + 1, true) := by
    rw [AudioProcessor.speechUpdate, if_pos rfl]
    rw [show (c6AP c true cnt [s0, s1] q).speech_frame_count = c from rfl]
    rw [if_pos (by rw [show SPEECH_FRAME_THRESHOLD = 5 from rfl]; exact h5)]
  have hst : (lfilter [c6b0, 0, -c6b0] [1, 0, c6a2] [s0, s1]
      (List.replicate 4096 0)).2 = [(-c6a2) ^ 2048 * s0, (-c6a2) ^ 2048 * s1] := by
    have h := lfilter_biquad_zero_input c6b0 (-c6b0) c6a2 s0 s1 2048
    rw [show 2 * 2048 = 4096 from by norm_num] at h
    exact h
  have hlf : lfilter (c6AP c true cnt [s0, s1] q).bp_b (c6AP c true cnt [s0, s1] q).bp_a
      (c6AP c true cnt [s0, s1] q).bp_zi (AudioProcessor.floatChunk zChunk) =
      ((lfilter [c6b0, 0, -c6b0] [1, 0, c6a2] [s0, s1] (List.replicate 4096 0)).1,
        [(-c6a2) ^ 2048 * s0, (-c6a2) ^ 2048 * s1]) := by
    rw [hfl]
    rw [show (c6AP c true cnt [s0, s1] q).bp_b = [c6b0, 0, -c6b0] from rfl,
      show (c6AP c true cnt [s0, s1] q).bp_a = [1, 0, c6a2] from rfl,
      show (c6AP c true cnt [s0, s1] q).bp_zi = [s0, s1] from rfl]
    rw [← hst]
  have hlen : zChunk.length = 4096 := by
    rw [zChunk, List.length_replicate]
  rw [AudioProcessor.audio_callback, hfires]
  rw [if_neg (show ¬(false = true) from by simp)]
  rw [hlf, hno, hsp]
  simp only [hlen, hc]
  rw [show (c6AP c true cnt [s0, s1] q).pop_noise_silence_counter = cnt from rfl]
  rw [if_pos hcnt, hcnt2]
  rfl

set_option maxRecDepth 20000 in
set_option maxHeartbeats 2000000 in
theorem c6_step_final (s0 s1 : ℝ) (q : List (List ℝ)) :
    (c6AP 15 true 0 [s0, s1] q).audio_callback impChunkI true =
      (c6AP 16 true 0
        (lfilter [c6b0, 0, -c6b0] [1, 0, c6a2] [s0, s1]
          (AudioProcessor.floatChunk impChunkI)).2
        (q ++ [(lfilter [c6b0, 0, -c6b0] [1, 0, c6a2] [s0, s1]
          (AudioProcessor.floatChunk impChunkI)).1]),
        ((lfilter [c6b0, 0, -c6b0] [1, 0, c6a2] [s0, s1]
          (AudioProcessor.floatChunk impChunkI)).1).map fun v => floatToI16 (v * 1)) := by
  have hfires : (c6AP 15 true 0 [s0, s1] q).popFires impChunkI true = false := by
    rw [AudioProcessor.popFires, is_pop_noise_imp, Bool.false_and]
  have hno : (c6AP 15 true 0 [s0, s1] q).noiseOut impChunkI true =
      (NoiseReduction.init 6000 4096 10,
        (lfilter [c6b0, 0, -c6b0] [1, 0, c6a2] [s0, s1]
          (AudioProcessor.floatChunk impChunkI)).1) := c6_noiseOut _ _ _ _ _ _
  have hsp : (c6AP 15 true 0 [s0, s1] q).speechUpdate true = (16, true) := by
    rw [AudioProcessor.speechUpdate, if_pos rfl]
    rw [show (c6AP 15 true 0 [s0, s1] q).speech_frame_count = 15 from rfl]
    rw [if_pos (by rw [show SPEECH_FRAME_THRESHOLD = 5 from rfl]; omega)]
  have hlf : lfilter (c6AP 15 true 0 [s0, s1] q).bp_b (c6AP 15 true 0 [s0, s1] q).bp_a
      (c6AP 15 true 0 [s0, s1] q).bp_zi (AudioProcessor.floatChunk impChunkI) =
      lfilter [c6b0, 0, -c6b0] [1, 0, c6a2] [s0, s1]
        (AudioProcessor.floatChunk impChunkI) := rfl
  rw [AudioProcessor.audio_callback, hfires]
  rw [if_neg (show ¬(false = true) from by simp)]
  rw [hlf, hno, hsp]
  rw [if_neg (by
    norm_num [show (c6AP 15 true 0 [s0, s1] q).pop_noise_silence_counter = 0 from rfl])]
  rw [if_pos rfl]
  rfl

/-! Bounding the filter state carried into the final chunk. -/

/-- The filter state slot after `k` all-zero chunks from an initial
value `s`. -/
def c6Decay (s : ℝ) : ℕ → ℝ
  | 0 => s
  | k + 1 => Neg.neg c6a2 ^ 2048 * c6Decay s k

theorem c6Decay_abs_le (s : ℝ) (hs : |s| ≤ 1) (k : ℕ) :
    |c6Decay s k| ≤ (27 / 100) ^ k := by
  induction k with
  | zero =>
    rw [c6Decay, pow_zero]
    exact hs
  | succ k ih =>
    rw [c6Decay, abs_mul, abs_pow, abs_neg, abs_of_nonneg c6a2_nonneg, pow_succ]
    have h1 : c6a2 ^ 2048 ≤ 27 / 100 := by
      calc c6a2 ^ 2048 ≤ c6a2 ^ 1 :=
            pow_le_pow_of_le_one c6a2_nonneg c6a2_le_one (by norm_num)
      _ = c6a2 := pow_one _
      _ ≤ 27 / 100 := c6a2_le
    have h2 : (0 : ℝ) ≤ (27 / 100 : ℝ) ^ k := by positivity
    have h3 : (0 : ℝ) ≤ |c6Decay s k| := abs_nonneg _
    calc c6a2 ^ 2048 * |c6Decay s k| ≤ 27 / 100 * (27 / 100) ^ k :=
          mul_le_mul h1 ih h3 (by norm_num)
    _ = (27 / 100) ^ k * (27 / 100) := by ring

theorem sqS0_abs_le : |sqS0| ≤ 1 := by
  rw [sqS0, c6Y_eq]
  have h1 : |(-c6b0) * sqSig 4094 - c6a2 * c6Y 4094| ≤
      |(-c6b0) * sqSig 4094| + |c6a2 * c6Y 4094| := by
    rw [sub_eq_add_neg]
    exact (abs_add _ _).trans (le_of_eq (by rw [abs_neg]))
  rw [abs_mul, abs_neg, abs_of_nonneg c6b0_nonneg, sqSig_abs, abs_mul,
    abs_of_nonneg c6a2_nonneg] at h1
  have h2 := c6Y_abs_le 4094
  have h3 := c6b0_le
  have h4 := c6a2_le
  nlinarith [c6a2_nonneg, c6b0_nonneg, abs_nonneg (c6Y 4094)]

theorem sqS1_abs_le : |sqS1| ≤ 1 := by
  rw [sqS1, c6Y_eq]
  have h1 : |(-c6b0) * sqSig 4095 - c6a2 * c6Y 4095| ≤
      |(-c6b0) * sqSig 4095| + |c6a2 * c6Y 4095| := by
    rw [sub_eq_add_neg]
    exact (abs_add _ _).trans (le_of_eq (by rw [abs_neg]))
  rw [abs_mul, abs_neg, abs_of_nonneg c6b0_nonneg, sqSig_abs, abs_mul,
    abs_of_nonneg c6a2_nonneg] at h1
  have h2 := c6Y_abs_le 4095
  have h3 := c6b0_le
  have h4 := c6a2_le
  nlinarith [c6a2_nonneg, c6b0_nonneg, abs_nonneg (c6Y 4095)]

/-- The impulse response head: with a near-zero carried state, the first
output sample of the final chunk quantizes to a strictly positive int16
value, so the emitted chunk is not silence. -/
theorem c6_final_output_ne (s0 s1 : ℝ) (h0 : |s0| ≤ 1 / 1024) :
    ((lfilter [c6b0, 0, -c6b0] [1, 0, c6a2] [s0, s1]
        (AudioProcessor.floatChunk impChunkI)).1).map (fun v => floatToI16 (v * 1)) ≠
      List.replicate 4096 (0 : ℤ) := by
  rw [floatChunk_imp]
  rw [show lfilter [c6b0, 0, -c6b0] [1, 0, c6a2] [s0, s1]
      ((1 / 32 : ℝ) :: List.replicate 4095 0) =
      ((lfilterStep [c6b0, 0, -c6b0] [1, 0, c6a2] [s0, s1] (1 / 32)).1 ::
        (lfilter [c6b0, 0, -c6b0] [1, 0, c6a2]
          (lfilterStep [c6b0, 0, -c6b0] [1, 0, c6a2] [s0, s1] (1 / 32)).2
          (List.replicate 4095 0)).1,
       (lfilter [c6b0, 0, -c6b0] [1, 0, c6a2]
          (lfilterStep [c6b0, 0, -c6b0] [1, 0, c6a2] [s0, s1] (1 / 32)).2
          (List.replicate 4095 0)).2) from rfl]
  rw [List.map_cons]
  intro h
  rw [show List.replicate 4096 (0 : ℤ) = 0 :: List.replicate 4095 0 from rfl,
    List.cons.injEq] at h
  have hhead := h.1
  rw [show (lfilterStep [c6b0, 0, -c6b0] [1, 0, c6a2] [s0, s1] (1 / 32)).1 =
      c6b0 * (1 / 32) + s0 from by rw [lfilterStep_biquad_gen]] at hhead
  have habs := abs_le.mp h0
  have hge : (1 : ℤ) ≤ floatToI16 ((c6b0 * (1 / 32) + s0) * 1) := by
    have hr : ((c6b0 * (1 / 32) + s0) * 1) * 32768 = c6b0 * 1024 + s0 * 32768 := by
      ring
    rw [floatToI16, clip, hr]
    have hb1 : (341 : ℝ) ≤ c6b0 * 1024 + s0 * 32768 := by
      have := c6b0_ge
      linarith [habs.1]
    have hb2 : c6b0 * 1024 + s0 * 32768 ≤ 411 := by
      have := c6b0_le
      linarith [habs.2]
    rw [min_eq_right (by linarith), max_eq_right (by linarith)]
    rw [truncInt, if_pos (by linarith)]
    exact Int.le_floor.mpr (by push_cast; linarith)
  rw [hhead] at hge
  omega

/-- The sixteen driver callbacks of the scenario. -/
def c6Entries : List (List ℤ × Bool) :=
  [(zChunk, true), (zChunk, true), (zChunk, true), (zChunk, true), (zChunk, true),
   (sqChunkI, true),
   (zChunk, true), (zChunk, true), (zChunk, true), (zChunk, true), (zChunk, true),
   (zChunk, true), (zChunk, true), (zChunk, true), (zChunk, true),
   (impChunkI, true)]

set_option maxHeartbeats 2000000 in
/-- Evaluating the sixteen outputs of the scenario: the first fifteen are
all-zero chunks, the sixteenth is the quantized filtered impulse. -/
theorem c6_run_eval :
    ((AudioProcessor.mk1 6000 1000 2000 4096 1 10).runCallbacks c6Entries).2 =
      List.replicate 15 (List.replicate 4096 0) ++
        [((lfilter [c6b0, 0, -c6b0] [1, 0, c6a2] [c6Decay sqS0 9, c6Decay sqS1 9]
            (AudioProcessor.floatChunk impChunkI)).1).map fun v => floatToI16 (v * 1)] := by
  rw [mk1_c6_eval, c6Entries]
  rw [runCallbacks_step _ _ _ _ _ _ (c6_step_zero_idle 0 1 false false _
    (by norm_num) (by rw [if_neg (by norm_num)]))]
  rw [runCallbacks_step _ _ _ _ _ _ (c6_step_zero_idle 1 2 false false _
    (by norm_num) (by rw [if_neg (by norm_num)]))]
  rw [runCallbacks_step _ _ _ _ _ _ (c6_step_zero_idle 2 3 false false _
    (by norm_num) (by rw [if_neg (by norm_num)]))]
  rw [runCallbacks_step _ _ _ _ _ _ (c6_step_zero_idle 3 4 false false _
    (by norm_num) (by rw [if_neg (by norm_num)]))]
  rw [runCallbacks_step _ _ _ _ _ _ (c6_step_zero_idle 4 5 false true _
    (by norm_num) (by rw [if_pos (by norm_num)]))]
  rw [runCallbacks_step _ _ _ _ _ _ (c6_step_trigger _)]
  rw [runCallbacks_step _ _ _ _ _ _ (c6_step_zero_count 6 7 9 8 _ _ _
    (by norm_num) (by norm_num) (by norm_num) (by norm_num))]
  rw [runCallbacks_step _ _ _ _ _ _ (c6_step_zero_count 7 8 8 7 _ _ _
    (by norm_num) (by norm_num) (by norm_num) (by norm_num))]
  rw [runCallbacks_step _ _ _ _ _ _ (c6_step_zero_count 8 9 7 6 _ _ _
    (by norm_num) (by norm_num) (by norm_num) (by norm_num))]
  rw [runCallbacks_step _ _ _ _ _ _ (c6_step_zero_count 9 10 6 5 _ _ _
    (by norm_num) (by norm_num) (by norm_num) (by norm_num))]
  rw [runCallbacks_step _ _ _ _ _ _ (c6_step_zero_count 10 11 5 4 _ _ _
    (by norm_num) (by norm_num) (by norm_num) (by norm_num))]
  rw [runCallbacks_step _ _ _ _ _ _ (c6_step_zero_count 11 12 4 3 _ _ _
    (by norm_num) (by norm_num) (by norm_num) (by norm_num))]
  rw [runCallbacks_step _ _ _ _ _ _ (c6_step_zero_count 12 13 3 2 _ _ _
    (by norm_num) (by norm_num) (by norm_num) (by norm_num))]
  rw [runCallbacks_step _ _ _ _ _ _ (c6_step_zero_count 13 14 2 1 _ _ _
    (by norm_num) (by norm_num) (by norm_num) (by norm_num))]
  rw [runCallbacks_step _ _ _ _ _ _ (c6_step_zero_count 14 15 1 0 _ _ _
    (by norm_num) (by norm_num) (by norm_num) (by norm_num))]
  rw [runCallbacks_step _ _ _ _ _ _ (c6_step_final _ _ _)]
  rw [runCallbacks_nil]
  rfl

/-- The state reached by the five gate-opening callbacks. -/
theorem c6_run_state5 :
    ((AudioProcessor.mk1 6000 1000 2000 4096 1 10).runCallbacks
        (List.replicate 5 ((zChunk, true) : List ℤ × Bool))).1 =
      c6AP 5 true 0 [0, 0] (List.replicate 5 (List.replicate 4096 0)) := by
  rw [mk1_c6_eval]
  rw [show List.replicate 5 ((zChunk, true) : List ℤ × Bool) =
      [(zChunk, true), (zChunk, true), (zChunk, true), (zChunk, true), (zChunk, true)]
      from rfl]
  rw [runCallbacks_step _ _ _ _ _ _ (c6_step_zero_idle 0 1 false false _
    (by norm_num) (by rw [if_neg (by norm_num)]))]
  rw [runCallbacks_step _ _ _ _ _ _ (c6_step_zero_idle 1 2 false false _
    (by norm_num) (by rw [if_neg (by norm_num)]))]
  rw [runCallbacks_step _ _ _ _ _ _ (c6_step_zero_idle 2 3 false false _
    (by norm_num) (by rw [if_neg (by norm_num)]))]
  rw [runCallbacks_step _ _ _ _ _ _ (c6_step_zero_idle 3 4 false false _
    (by norm_num) (by rw [if_neg (by norm_num)]))]
  rw [runCallbacks_step _ _ _ _ _ _ (c6_step_zero_idle 4 5 false true _
    (by norm_num) (by rw [if_pos (by norm_num)]))]
  rw [runCallbacks_nil]
  rfl

/-- C6 counterexample: the pop guard silences only `POP_SILENCE_FRAMES - 1`
chunks *after* the trigger, not `POP_SILENCE_FRAMES`.  In the sixteen-callback
scenario `c6Entries`, pop detection fires on the sixth chunk (the square
wave) from the state the first five callbacks produce; the trigger chunk
and the nine chunks after it (outputs 5 through 14) are emitted as silence,
but the tenth chunk after the trigger (output 15) is *not* silenced — it is
emitted through the speech branch with a nonzero first sample — because the
callback that arms the counter to `POP_SILENCE_FRAMES = 10` already
decrements it in the same invocation. -/
theorem pop_guard_off_by_one :
    (((AudioProcessor.mk1 6000 1000 2000 4096 1 10).runCallbacks
        (List.replicate 5 ((zChunk, true) : List ℤ × Bool))).1).popFires
        sqChunkI true = true ∧
    ((AudioProcessor.mk1 6000 1000 2000 4096 1 10).runCallbacks c6Entries).2.getD 5 [] =
      List.replicate 4096 0 ∧
    ((AudioProcessor.mk1 6000 1000 2000 4096 1 10).runCallbacks c6Entries).2.getD 6 [] =
      List.replicate 4096 0 ∧
    ((AudioProcessor.mk1 6000 1000 2000 4096 1 10).runCallbacks c6Entries).2.getD 7 [] =
      List.replicate 4096 0 ∧
    ((AudioProcessor.mk1 6000 1000 2000 4096 1 10).runCallbacks c6Entries).2.getD 8 [] =
      List.replicate 4096 0 ∧
    ((AudioProcessor.mk1 6000 1000 2000 4096 1 10).runCallbacks c6Entries).2.getD 9 [] =
      List.replicate 4096 0 ∧
    ((AudioProcessor.mk1 6000 1000 2000 4096 1 10).runCallbacks c6Entries).2.getD 10 [] =
      List.replicate 4096 0 ∧
    ((AudioProcessor.mk1 6000 1000 2000 4096 1 10).runCallbacks c6Entries).2.getD 11 [] =
      List.replicate 4096 0 ∧
    ((AudioProcessor.mk1 6000 1000 2000 4096 1 10).runCallbacks c6Entries).2.getD 12 [] =
      List.replicate 4096 0 ∧
    ((AudioProcessor.mk1 6000 1000 2000 4096 1 10).runCallbacks c6Entries).2.getD 13 [] =
      List.replicate 4096 0 ∧
    ((AudioProcessor.mk1 6000 1000 2000 4096 1 10).runCallbacks c6Entries).2.getD 14 [] =
      List.replicate 4096 0 ∧
    ((AudioProcessor.mk1 6000 1000 2000 4096 1 10).runCallbacks c6Entries).2.getD 15 [] ≠
      List.replicate 4096 0 := by
  have hT0 : |c6Decay sqS0 9| ≤ 1 / 1024 :=
    le_trans (c6Decay_abs_le sqS0 sqS0_abs_le 9) (by norm_num)
  refine ⟨?_, ?_, ?_, ?_, ?_, ?_, ?_, ?_, ?_, ?_, ?_, ?_⟩
  · rw [c6_run_state5]
    exact c6_popFires_trigger _
  · rw [c6_run_eval]
    rfl
  · rw [c6_run_eval]
    rfl
  · rw [c6_run_eval]
    rfl
  · rw [c6_run_eval]
    rfl
  · rw [c6_run_eval]
    rfl
  · rw [c6_run_eval]
    rfl
  · rw [c6_run_eval]
    rfl
  · rw [c6_run_eval]
    rfl
  · rw [c6_run_eval]
    rfl
  · rw [c6_run_eval]
    rfl
  · rw [c6_run_eval]
    exact fun h => c6_final_output_ne (c6Decay sqS0 9) (c6Decay sqS1 9) hT0 h

end GuitarFx
